import Mathlib

/-!
# AccTelemetry: wire codec and client driver

A shallow embedding of `buffer.go`, `models.go` and `udp_client.go`.

* A `bytes.Buffer` is the list of its unread bytes: reads consume from the
  front, writes append at the end.
* `byte` is `Fin 256` (its arithmetic wraps as in Go), `uint16` is a `Nat`
  below `65536`, `int16`/`int32` are `Int` with explicit wrapping, `float32`
  is carried as its IEEE bit pattern (a `Nat` below `2^32`), a Go `string`
  is the list of its bytes.
* A Go function returning `(value, err)` returns a `Res`: the value, the
  error (`none` is `nil`) and the buffer it leaves behind.  The value is kept
  on the error path as well, since callers may use it.
* A function that can panic returns a `Run`.
-/

namespace AccTelemetry

/-! ## Primitive types -/

abbrev Byte := Fin 256

abbrev Buffer := List Byte

abbrev GoString := List Byte

/-- Go `error` values produced by the codec: the two errors of package `io`
and the values of `errors.New`, written `New` when the text is a literal of
the program and `NewOfBytes` when it is a string read from the wire. -/
inductive GoError where
  | EOF
  | ErrUnexpectedEOF
  | New (text : String)
  | NewOfBytes (text : GoString)
  deriving DecidableEq, Repr

/-- The bytes of a Go string literal: its UTF-8 encoding. -/
def utf8Bytes (s : String) : GoString :=
  s.toUTF8.data.toList.map (fun u => Fin.ofNat u.toNat)

/-- The method `Error()`: the text an error carries.  `io.EOF` is
`errors.New("EOF")` and `io.ErrUnexpectedEOF` is
`errors.New("unexpected EOF")`; `errors.New(text)` carries `text`, whether
`text` is a literal of the program or a string read from the wire.  The text
is all that a receiver of the error can tell it by. -/
def GoError.Error : GoError → GoString
  | .EOF => utf8Bytes "EOF"
  | .ErrUnexpectedEOF => utf8Bytes "unexpected EOF"
  | .New text => utf8Bytes text
  | .NewOfBytes text => text

/-- Result of a Go call `(value, err)` on a buffer. -/
structure Res (α : Type) where
  val : α
  err : Option GoError
  buf : Buffer
  deriving DecidableEq, Repr

/-- Outcome of a Go call that may panic. -/
inductive Run (α : Type) where
  | panicked : Run α
  | done (r : Res α) : Run α
  deriving DecidableEq, Repr

/-- Result of a Go call returning only `err` after writing to a buffer. -/
structure WRes where
  err : Option GoError
  buf : Buffer
  deriving DecidableEq, Repr

/-! ## Little-endian conversions (`encoding/binary`) -/

/-- Value of a little-endian byte sequence. -/
def leNat : List Byte → Nat
  | [] => 0
  | x :: xs => x.val + 256 * leNat xs

/-- The `w` little-endian bytes of `v` (the low `8 * w` bits). -/
def leBytes : Nat → Nat → List Byte
  | 0, _ => []
  | w + 1, v => Fin.ofNat (v % 256) :: leBytes w (v / 256)

/-- Conversion `int16(x)` of a non-negative `x` (a length, a count, or the
value of two bytes): the low 16 bits read as two's complement. -/
def toInt16 (x : Nat) : Int :=
  if x % 65536 < 32768 then ((x % 65536 : Nat) : Int) else ((x % 65536 : Nat) : Int) - 65536

/-- Conversion `int32(x)` of a non-negative `x`: the low 32 bits read as
two's complement. -/
def toInt32 (x : Nat) : Int :=
  if x % 4294967296 < 2147483648 then ((x % 4294967296 : Nat) : Int)
  else ((x % 4294967296 : Nat) : Int) - 4294967296

/-- Conversion `uint16(x)` of a signed value. -/
def toUint16 (x : Int) : Nat := (x % 65536).toNat

/-- Conversion `uint32(x)` of a signed value. -/
def toUint32 (x : Int) : Nat := (x % 4294967296).toNat

/-- `io.ReadFull(b, bs)` with `len(bs) = n > 0` on a `bytes.Buffer`: all `n`
bytes, or `EOF` on an empty buffer, or `ErrUnexpectedEOF` after draining a
buffer that is too short. -/
def readFull (n : Nat) (b : Buffer) : Res (List Byte) :=
  if n ≤ b.length then ⟨b.take n, none, b.drop n⟩
  else if b.length = 0 then ⟨[], some .EOF, []⟩
  else ⟨b, some .ErrUnexpectedEOF, []⟩

/-! ## `readNumber[d]` and `writeNumber[d]`, one instance per type `d`

`binary.Read` leaves `data` at its zero value when `io.ReadFull` fails. -/

def readNumberByte (b : Buffer) : Res Byte :=
  let r := readFull 1 b
  match r.err with
  | some e => ⟨0, some e, r.buf⟩
  | none => ⟨r.val.headD 0, none, r.buf⟩

def readNumberBool (b : Buffer) : Res Bool :=
  let r := readFull 1 b
  match r.err with
  | some e => ⟨false, some e, r.buf⟩
  | none => ⟨r.val.headD 0 != 0, none, r.buf⟩

def readNumberInt8 (b : Buffer) : Res Int :=
  let r := readFull 1 b
  match r.err with
  | some e => ⟨0, some e, r.buf⟩
  | none =>
    let u : Nat := (r.val.headD 0).val
    ⟨if u < 128 then (u : Int) else (u : Int) - 256, none, r.buf⟩

def readNumberUint16 (b : Buffer) : Res Nat :=
  let r := readFull 2 b
  match r.err with
  | some e => ⟨0, some e, r.buf⟩
  | none => ⟨leNat r.val, none, r.buf⟩

def readNumberInt16 (b : Buffer) : Res Int :=
  let r := readFull 2 b
  match r.err with
  | some e => ⟨0, some e, r.buf⟩
  | none => ⟨toInt16 (leNat r.val), none, r.buf⟩

def readNumberInt32 (b : Buffer) : Res Int :=
  let r := readFull 4 b
  match r.err with
  | some e => ⟨0, some e, r.buf⟩
  | none => ⟨toInt32 (leNat r.val), none, r.buf⟩

/-- A `float32` is carried as its bit pattern. -/
def readNumberFloat32 (b : Buffer) : Res Nat :=
  let r := readFull 4 b
  match r.err with
  | some e => ⟨0, some e, r.buf⟩
  | none => ⟨leNat r.val, none, r.buf⟩

/-- `binary.Write` to a `bytes.Buffer` appends and returns `nil`. -/
def writeNumberByte (b : Buffer) (data : Byte) : WRes :=
  ⟨none, b ++ [data]⟩

def writeNumberBool (b : Buffer) (data : Bool) : WRes :=
  ⟨none, b ++ [if data then 1 else 0]⟩

def writeNumberUint16 (b : Buffer) (data : Nat) : WRes :=
  ⟨none, b ++ leBytes 2 data⟩

def writeNumberInt16 (b : Buffer) (data : Int) : WRes :=
  ⟨none, b ++ leBytes 2 (toUint16 data)⟩

def writeNumberInt32 (b : Buffer) (data : Int) : WRes :=
  ⟨none, b ++ leBytes 4 (toUint32 data)⟩

/-! ## Data model (`models.go`) -/

abbrev LapType := Byte

def LapTypeERROR : LapType := 0
def LapTypeOutlap : LapType := 1
def LapTypeRegular : LapType := 2
def LapTypeInlap : LapType := 3

structure LapInfo where
  LapTimeMs : Int := 0
  Splits : List Int := []
  CarIndex : Nat := 0
  DriverIndex : Nat := 0
  IsInvalid : Bool := false
  IsValidForBest : Bool := false
  LapType : LapType := 0
  deriving DecidableEq, Repr

/-! ## `readLap` -/

/-- The loop `for i := byte(0); i < splitCount; i++` of `readLap`, by the
number of iterations left (`i` cannot wrap: it stays below `splitCount`). -/
def readLapSplits : Nat → Buffer → LapInfo → Res LapInfo
  | 0, b, lap => ⟨lap, none, b⟩
  | n + 1, b, lap =>
    let r := readNumberInt32 b
    match r.err with
    | some e => ⟨lap, some e, r.buf⟩
    | none => readLapSplits n r.buf { lap with Splits := lap.Splits ++ [r.val] }

/-- The loop `for len(lap.Splits) < 3`, by the number of iterations left. -/
def padSplitsLoop : Nat → List Int → List Int
  | 0, splits => splits
  | n + 1, splits => padSplitsLoop n (splits ++ [0])

def padSplits (splits : List Int) : List Int :=
  padSplitsLoop (3 - splits.length) splits

def readLap (b : Buffer) : Res LapInfo :=
  let lap : LapInfo := {}
  let r1 := readNumberInt32 b
  let lap := { lap with LapTimeMs := r1.val }
  match r1.err with
  | some e => ⟨lap, some e, r1.buf⟩
  | none =>
  let r2 := readNumberUint16 r1.buf
  let lap := { lap with CarIndex := r2.val }
  match r2.err with
  | some e => ⟨lap, some e, r2.buf⟩
  | none =>
  let r3 := readNumberUint16 r2.buf
  let lap := { lap with DriverIndex := r3.val }
  match r3.err with
  | some e => ⟨lap, some e, r3.buf⟩
  | none =>
  let r4 := readNumberByte r3.buf
  let splitCount := r4.val
  match r4.err with
  | some e => ⟨lap, some e, r4.buf⟩
  | none =>
  let r5 := readLapSplits splitCount.val r4.buf lap
  let lap := r5.val
  match r5.err with
  | some e => ⟨lap, some e, r5.buf⟩
  | none =>
  let r6 := readNumberBool r5.buf
  let lap := { lap with IsInvalid := r6.val }
  match r6.err with
  | some e => ⟨lap, some e, r6.buf⟩
  | none =>
  let r7 := readNumberBool r6.buf
  let lap := { lap with IsValidForBest := r7.val }
  match r7.err with
  | some e => ⟨lap, some e, r7.buf⟩
  | none =>
  let r8 := readNumberBool r7.buf
  let isOutLap := r8.val
  match r8.err with
  | some e => ⟨lap, some e, r8.buf⟩
  | none =>
  let r9 := readNumberBool r8.buf
  let isInLap := r9.val
  match r9.err with
  | some e => ⟨lap, some e, r9.buf⟩
  | none =>
  let lap := { lap with LapType :=
    if isOutLap then LapTypeOutlap else if isInLap then LapTypeInlap else LapTypeRegular }
  let lap := { lap with Splits := padSplits lap.Splits }
  ⟨lap, none, r9.buf⟩

/-! ## Strings -/

def writeString (b : Buffer) (data : GoString) : WRes :=
  let length := toInt16 data.length
  let w := writeNumberInt16 b length
  match w.err with
  | some lengthErr => ⟨some lengthErr, w.buf⟩
  | none =>
  -- `b.Write([]byte(data))` appends every byte: `n = len(data)`, `dataErr = nil`
  let buf := w.buf ++ data
  let n := data.length
  if n ≠ data.length then ⟨some (.New "mismatch of length written bytes"), buf⟩
  else ⟨none, buf⟩

/-- Result of `(*bytes.Buffer).Read(p)`: the slice `p` after the call, the
count `n`, the error and the buffer left. -/
structure ReadOut where
  p : List Byte
  n : Nat
  err : Option GoError
  buf : Buffer
  deriving DecidableEq, Repr

/-- `(*bytes.Buffer).Read(p)`: an empty buffer gives `(0, nil)` when
`len(p) = 0` and `(0, io.EOF)` otherwise; a non-empty buffer copies
`min(len(p), b.Len())` bytes and returns `nil`. -/
def Buffer.Read (b : Buffer) (p : List Byte) : ReadOut :=
  if b.length = 0 then
    if p.length = 0 then ⟨p, 0, none, b⟩ else ⟨p, 0, some .EOF, b⟩
  else
    let n := min p.length b.length
    ⟨b.take n ++ p.drop n, n, none, b.drop n⟩

/-- The error of `readNumber[int16]` is overwritten by the one of `b.Read`;
`make([]byte, length)` panics when `length` is negative. -/
def readString (b : Buffer) : Run GoString :=
  let r := readNumberInt16 b
  let length := r.val
  if length < 0 then .panicked
  else
    let buff : List Byte := List.replicate length.toNat 0
    let o := r.buf.Read buff
    let err := if toInt16 o.n ≠ length then some (GoError.New "mis") else o.err
    .done ⟨o.p, err, o.buf⟩

/-! ## Inbound decoders -/

def readConnectionResponse (b : Buffer) : Run (Int × Bool × Bool) :=
  let r1 := readNumberInt32 b
  let connectionId := r1.val
  match r1.err with
  | some e => .done ⟨(connectionId, false, false), some e, r1.buf⟩
  | none =>
  let r2 := readNumberBool r1.buf
  let connectionSuccess := r2.val
  match r2.err with
  | some e => .done ⟨(connectionId, connectionSuccess, false), some e, r2.buf⟩
  | none =>
  let r3 := readNumberBool r2.buf
  let isReadOnly := r3.val
  match r3.err with
  | some e => .done ⟨(connectionId, connectionSuccess, isReadOnly), some e, r3.buf⟩
  | none =>
  match readString r3.buf with
  | .panicked => .panicked
  | .done r4 =>
  let errMsg := r4.val
  match r4.err with
  | some e => .done ⟨(connectionId, connectionSuccess, isReadOnly), some e, r4.buf⟩
  | none =>
  if errMsg ≠ [] then
    .done ⟨(connectionId, connectionSuccess, isReadOnly), some (.NewOfBytes errMsg), r4.buf⟩
  else
    .done ⟨(connectionId, connectionSuccess, isReadOnly), none, r4.buf⟩

abbrev EntryList := List Nat

/-- The loop `for i := uint16(0); i < entryCount; i++` of
`readEntryListResponse`, by the number of iterations left and the index `i`
(`i` cannot wrap: it stays below `entryCount`). -/
def readEntries : Nat → Nat → Buffer → EntryList → Res EntryList
  | 0, _, b, entryList => ⟨entryList, none, b⟩
  | n + 1, i, b, entryList =>
    let r := readNumberUint16 b
    match r.err with
    | some e => ⟨entryList, some e, r.buf⟩
    | none => readEntries n (i + 1) r.buf (entryList.set i r.val)

def readEntryListResponse (b : Buffer) : Res (Int × EntryList) :=
  let r1 := readNumberInt32 b
  let connectionId := r1.val
  match r1.err with
  | some e => ⟨(connectionId, []), some e, r1.buf⟩
  | none =>
  let r2 := readNumberUint16 r1.buf
  let entryCount := r2.val
  match r2.err with
  | some e => ⟨(connectionId, []), some e, r2.buf⟩
  | none =>
  let entryList : EntryList := List.replicate entryCount 0
  let r3 := readEntries entryCount 0 r2.buf entryList
  ⟨(connectionId, r3.val), r3.err, r3.buf⟩

abbrev CarLocation := Byte

structure RealTimeCarUpdate where
  CarIndex : Nat := 0
  DriverIndex : Nat := 0
  Gear : Byte := 0
  WorldPosX : Nat := 0
  WorldPosY : Nat := 0
  Yaw : Nat := 0
  CarLocation : CarLocation := 0
  Kmh : Nat := 0
  Position : Nat := 0
  TrackPosition : Nat := 0
  SplinePosition : Nat := 0
  Delta : Int := 0
  BestSessionLap : LapInfo := {}
  LastLap : LapInfo := {}
  CurrentLap : LapInfo := {}
  Laps : Nat := 0
  CupPosition : Nat := 0
  DriverCount : Byte := 0
  deriving DecidableEq, Repr

def readRealtimeCarUpdateResponse (b : Buffer) : Res RealTimeCarUpdate :=
  let update : RealTimeCarUpdate := {}
  let r := readNumberUint16 b
  let update := { update with CarIndex := r.val }
  match r.err with
  | some e => ⟨update, some e, r.buf⟩
  | none =>
  let r := readNumberUint16 r.buf
  let update := { update with DriverIndex := r.val }
  match r.err with
  | some e => ⟨update, some e, r.buf⟩
  | none =>
  let r := readNumberByte r.buf
  let update := { update with DriverCount := r.val }
  match r.err with
  | some e => ⟨update, some e, r.buf⟩
  | none =>
  let r := readNumberByte r.buf
  let gear : Byte := r.val
  match r.err with
  | some e => ⟨update, some e, r.buf⟩
  | none =>
  let update := { update with Gear := gear - 2 }
  let r := readNumberFloat32 r.buf
  let update := { update with WorldPosX := r.val }
  match r.err with
  | some e => ⟨update, some e, r.buf⟩
  | none =>
  let r := readNumberFloat32 r.buf
  let update := { update with WorldPosY := r.val }
  match r.err with
  | some e => ⟨update, some e, r.buf⟩
  | none =>
  let r := readNumberFloat32 r.buf
  let update := { update with Yaw := r.val }
  match r.err with
  | some e => ⟨update, some e, r.buf⟩
  | none =>
  let r := readNumberByte r.buf
  let update := { update with CarLocation := r.val }
  match r.err with
  | some e => ⟨update, some e, r.buf⟩
  | none =>
  let r := readNumberUint16 r.buf
  let update := { update with Kmh := r.val }
  match r.err with
  | some e => ⟨update, some e, r.buf⟩
  | none =>
  let r := readNumberUint16 r.buf
  let update := { update with Position := r.val }
  match r.err with
  | some e => ⟨update, some e, r.buf⟩
  | none =>
  let r := readNumberUint16 r.buf
  let update := { update with CupPosition := r.val }
  match r.err with
  | some e => ⟨update, some e, r.buf⟩
  | none =>
  let r := readNumberUint16 r.buf
  let update := { update with TrackPosition := r.val }
  match r.err with
  | some e => ⟨update, some e, r.buf⟩
  | none =>
  let r := readNumberFloat32 r.buf
  let update := { update with SplinePosition := r.val }
  match r.err with
  | some e => ⟨update, some e, r.buf⟩
  | none =>
  let r := readNumberUint16 r.buf
  let update := { update with Laps := r.val }
  match r.err with
  | some e => ⟨update, some e, r.buf⟩
  | none =>
  let r := readNumberInt32 r.buf
  let update := { update with Delta := r.val }
  match r.err with
  | some e => ⟨update, some e, r.buf⟩
  | none =>
  let l := readLap r.buf
  let update := { update with BestSessionLap := l.val }
  match l.err with
  | some e => ⟨update, some e, l.buf⟩
  | none =>
  let l := readLap l.buf
  let update := { update with LastLap := l.val }
  match l.err with
  | some e => ⟨update, some e, l.buf⟩
  | none =>
  let l := readLap l.buf
  let update := { update with CurrentLap := l.val }
  match l.err with
  | some e => ⟨update, some e, l.buf⟩
  | none => ⟨update, none, l.buf⟩

/-! ## Outbound encoders -/

abbrev OutboundMessage := Byte

def OutboundMessageRegisterCommandApplication : OutboundMessage := 1
def OutboundMessageUnregisterCommandApplication : OutboundMessage := 9
def OutboundMessageRequestEntryList : OutboundMessage := 10
def OutboundMessageRequestTrackData : OutboundMessage := 11
def OutboundMessageChangeHudPage : OutboundMessage := 49
def OutboundMessageChangeFocus : OutboundMessage := 50
def OutboundMessageInstantReplayRequest : OutboundMessage := 51

def BroadcastingProtocolVersion : Byte := 4

def writeRegistration (b : Buffer) (displayName : GoString) (connectionPassword : GoString)
    (msRealtimeUpdateInterval : Int) (commandPassword : GoString) : WRes :=
  let w := writeNumberByte b OutboundMessageRegisterCommandApplication
  match w.err with
  | some err => ⟨some err, w.buf⟩
  | none =>
  let w := writeNumberByte w.buf BroadcastingProtocolVersion
  match w.err with
  | some err => ⟨some err, w.buf⟩
  | none =>
  let w := writeString w.buf displayName
  match w.err with
  | some err => ⟨some err, w.buf⟩
  | none =>
  let w := writeString w.buf connectionPassword
  match w.err with
  | some err => ⟨some err, w.buf⟩
  | none =>
  let w := writeNumberInt32 w.buf msRealtimeUpdateInterval
  match w.err with
  | some err => ⟨some err, w.buf⟩
  | none =>
  let w := writeString w.buf commandPassword
  match w.err with
  | some err => ⟨some err, w.buf⟩
  | none => ⟨none, w.buf⟩

def writeDisconnect (b : Buffer) (connectionId : Int) : WRes :=
  let w := writeNumberByte b OutboundMessageUnregisterCommandApplication
  match w.err with
  | some err => ⟨some err, w.buf⟩
  | none =>
  let w := writeNumberInt32 w.buf connectionId
  match w.err with
  | some err => ⟨some err, w.buf⟩
  | none => ⟨none, w.buf⟩

def writeEntryListRequest (b : Buffer) (connectionId : Int) : WRes :=
  let w := writeNumberByte b OutboundMessageRequestEntryList
  match w.err with
  | some err => ⟨some err, w.buf⟩
  | none =>
  let w := writeNumberInt32 w.buf connectionId
  match w.err with
  | some err => ⟨some err, w.buf⟩
  | none => ⟨none, w.buf⟩

def writeTrackDataRequest (b : Buffer) (connectionId : Int) : WRes :=
  let w := writeNumberByte b OutboundMessageRequestTrackData
  match w.err with
  | some err => ⟨some err, w.buf⟩
  | none =>
  let w := writeNumberInt32 w.buf connectionId
  match w.err with
  | some err => ⟨some err, w.buf⟩
  | none => ⟨none, w.buf⟩

/-- Modelled from the spec: the type `goptional.Optional[T]` of the external
package `github.com/Soemii/goptional`, whose source is not part of the
repository.  The spec calls it "an explicit optional/nullable abstraction":
a value that is present or absent. -/
abbrev Optional (α : Type) := Option α

/-- Modelled from the spec: `Optional.Present` reports whether the value is
present. -/
def Optional.Present {α : Type} (o : Optional α) : Bool := o.isSome

/-- Modelled from the spec: `Optional.Get` is the value of a present
optional (the encoder calls it only after `Present`). -/
def Optional.Get {α : Type} [Inhabited α] (o : Optional α) : α := o.getD default

/-- Modelled from the spec: `Optional.If` runs the callback on the value
when it is present and returns the callback's error; an absent value runs
nothing and returns `nil`.  The callback writes to the buffer. -/
def Optional.If {α : Type} (o : Optional α) (f : Buffer → α → WRes) (b : Buffer) : WRes :=
  match o with
  | some v => f b v
  | none => ⟨none, b⟩

def writeFocusedCar (b : Buffer) (connectionId : Int) (carIndex : Optional Nat)
    (cameraSet : Optional GoString) (camera : Optional GoString) : WRes :=
  let w := writeNumberByte b OutboundMessageChangeFocus
  match w.err with
  | some err => ⟨some err, w.buf⟩
  | none =>
  let w := writeNumberInt32 w.buf connectionId
  match w.err with
  | some err => ⟨some err, w.buf⟩
  | none =>
  let w := writeNumberBool w.buf carIndex.Present
  match w.err with
  | some err => ⟨some err, w.buf⟩
  | none =>
  let w := carIndex.If (fun b carId =>
    let w := writeNumberUint16 b carId
    match w.err with
    | some err => ⟨some err, w.buf⟩
    | none => ⟨none, w.buf⟩) w.buf
  match w.err with
  | some err => ⟨some err, w.buf⟩
  | none =>
  let w := writeNumberBool w.buf (cameraSet.Present && camera.Present)
  match w.err with
  | some err => ⟨some err, w.buf⟩
  | none =>
  if cameraSet.Present && camera.Present then
    let w := writeString w.buf cameraSet.Get
    match w.err with
    | some err => ⟨some err, w.buf⟩
    | none =>
    let w := writeString w.buf camera.Get
    match w.err with
    | some err => ⟨some err, w.buf⟩
    | none => ⟨none, w.buf⟩
  else ⟨none, w.buf⟩

/-! ## Remaining data model (`models.go`) -/

/-- Outcome of a Go call without a buffer that may panic. -/
inductive Outcome (α : Type) where
  | panicked : Outcome α
  | value (v : α) : Outcome α
  deriving DecidableEq, Repr

structure DriverInfo where
  FirstName : GoString := []
  LastName : GoString := []
  ShortName : GoString := []
  Category : Byte := 0
  Nationality : Byte := 0
  deriving DecidableEq, Repr

structure CarInfo where
  Id : Nat := 0
  Model : Byte := 0
  TeamName : GoString := []
  RaceNumber : Int := 0
  CupCategory : Byte := 0
  CurrentDriverId : Int := 0
  Drivers : List DriverInfo := []
  Nationality : Byte := 0
  deriving DecidableEq, Repr

/-- Conversion `int8(x)` of a non-negative `x`. -/
def toInt8 (x : Nat) : Int :=
  if x % 256 < 128 then ((x % 256 : Nat) : Int) else ((x % 256 : Nat) : Int) - 256

/-- Indexing `c.Drivers[i]` with a signed index panics outside
`0 <= i < len(c.Drivers)`. -/
def indexDrivers (drivers : List DriverInfo) (i : Int) : Outcome DriverInfo :=
  if i < 0 then .panicked
  else
    match drivers[i.toNat]? with
    | some d => .value d
    | none => .panicked

def CarInfo.GetCurrentDriver (c : CarInfo) : Outcome DriverInfo :=
  if c.CurrentDriverId > toInt8 c.Drivers.length then
    indexDrivers c.Drivers c.CurrentDriverId
  else .value {}

/-- The field `Type` is named `Type_` (a reserved word). -/
structure BroadCastEvent where
  Type_ : Byte := 0
  Msg : GoString := []
  TimeMs : Int := 0
  CarId : Int := 0
  deriving DecidableEq, Repr

/-- A Go `map[string][]string` as the list of its entries, keys distinct,
in order of first insertion. -/
abbrev CameraSetMap := List (GoString × List GoString)

/-- The map read `m[key]`: the zero value (a nil slice) for an absent key. -/
def CameraSetMap.get (m : CameraSetMap) (key : GoString) : List GoString :=
  match m with
  | [] => []
  | (k, v) :: rest => if k = key then v else CameraSetMap.get rest key

/-- The map write `m[key] = value`. -/
def CameraSetMap.set (m : CameraSetMap) (key : GoString) (value : List GoString) :
    CameraSetMap :=
  match m with
  | [] => [(key, value)]
  | (k, v) :: rest =>
    if k = key then (k, value) :: rest else (k, v) :: CameraSetMap.set rest key value

structure TrackData where
  Id : Byte := 0
  Name : GoString := []
  Meters : Int := 0
  CameraSets : CameraSetMap := []
  HudPages : List GoString := []
  deriving DecidableEq, Repr

/-- The fields of `RealTimeUpdate`.  A `time.Time` and a `time.Duration` are
numbers of nanoseconds; `Clouds`, `RainLevel` and `Wetness` hold the byte
whose tenth the `float32` field is. -/
structure RealTimeUpdate where
  EventIndex : Nat := 0
  SessionIndex : Nat := 0
  Phase : Byte := 0
  SessionTime : Int := 0
  RemainingTime : Int := 0
  TimeOfDay : Int := 0
  RainLevel : Nat := 0
  Clouds : Nat := 0
  Wetness : Nat := 0
  BestSessionLap : LapInfo := {}
  BestLapCarIndex : Nat := 0
  BestLapDriverIndex : Nat := 0
  FocusedCarIndex : Int := 0
  ActiveCameraSet : GoString := []
  ActiveCamera : GoString := []
  IsReplaying : Bool := false
  ReplaySessionTime : Int := 0
  ReplayRemainingTime : Int := 0
  SessionRemainingTime : Int := 0
  SessionEndTime : Int := 0
  SessionType : Byte := 0
  AmbientTemp : Byte := 0
  TrackTemp : Byte := 0
  CurrentHudPage : GoString := []
  deriving DecidableEq, Repr

def writeNumberInt8 (b : Buffer) (data : Int) : WRes :=
  ⟨none, b ++ leBytes 1 (data % 256).toNat⟩

/-! ## Remaining inbound decoders (`buffer.go`) -/

/-- `divideByTen`: the quotient `float32(b) / 10` is carried as `b`. -/
def divideByTen (r : Res Byte) : Res Nat :=
  ⟨r.val.val, r.err, r.buf⟩

/-- `parseTime` logs its argument and returns `time.Now()` (the clock reading
`now`) with an error, whatever it is given. -/
def parseTime (now : Int) (r : Res Nat) : Res Int :=
  ⟨now, some (.New "cannot convert float32 to time"), r.buf⟩

/-- `parseDuration` logs its argument and returns the zero duration with an
error, whatever it is given. -/
def parseDuration (r : Res Nat) : Res Int :=
  ⟨0, some (.New "cannot convert float32 to duration"), r.buf⟩

/-- The assignment `car.Drivers[i].field = v` for an index inside the
slice. -/
def modifyDriver (drivers : List DriverInfo) (i : Nat) (f : DriverInfo → DriverInfo) :
    List DriverInfo :=
  match drivers[i]? with
  | some d => drivers.set i (f d)
  | none => drivers

/-- The loop `for i := uint8(0); i < driversCount; i++` of
`readEntryListCarResponse`, by the number of iterations left and the index
`i`. -/
def readDrivers : Nat → Nat → Buffer → CarInfo → Run CarInfo
  | 0, _, b, car => .done ⟨car, none, b⟩
  | n + 1, i, b, car =>
    match readString b with
    | .panicked => .panicked
    | .done r =>
    let car := { car with Drivers := modifyDriver car.Drivers i (fun d => { d with FirstName := r.val }) }
    match r.err with
    | some e => .done ⟨car, some e, r.buf⟩
    | none =>
    match readString r.buf with
    | .panicked => .panicked
    | .done r =>
    let car := { car with Drivers := modifyDriver car.Drivers i (fun d => { d with LastName := r.val }) }
    match r.err with
    | some e => .done ⟨car, some e, r.buf⟩
    | none =>
    match readString r.buf with
    | .panicked => .panicked
    | .done r =>
    let car := { car with Drivers := modifyDriver car.Drivers i (fun d => { d with ShortName := r.val }) }
    match r.err with
    | some e => .done ⟨car, some e, r.buf⟩
    | none =>
    let r := readNumberByte r.buf
    let car := { car with Drivers := modifyDriver car.Drivers i (fun d => { d with Category := r.val }) }
    match r.err with
    | some e => .done ⟨car, some e, r.buf⟩
    | none =>
    let r := readNumberByte r.buf
    let car := { car with Drivers := modifyDriver car.Drivers i (fun d => { d with Nationality := r.val }) }
    match r.err with
    | some e => .done ⟨car, some e, r.buf⟩
    | none => readDrivers n (i + 1) r.buf car

def readEntryListCarResponse (b : Buffer) : Run CarInfo :=
  let car : CarInfo := {}
  let r := readNumberUint16 b
  let car := { car with Id := r.val }
  match r.err with
  | some e => .done ⟨car, some e, r.buf⟩
  | none =>
  let r := readNumberByte r.buf
  let car := { car with Model := r.val }
  match r.err with
  | some e => .done ⟨car, some e, r.buf⟩
  | none =>
  match readString r.buf with
  | .panicked => .panicked
  | .done r =>
  let car := { car with TeamName := r.val }
  match r.err with
  | some e => .done ⟨car, some e, r.buf⟩
  | none =>
  let r := readNumberInt32 r.buf
  let car := { car with RaceNumber := r.val }
  match r.err with
  | some e => .done ⟨car, some e, r.buf⟩
  | none =>
  let r := readNumberByte r.buf
  let car := { car with CupCategory := r.val }
  match r.err with
  | some e => .done ⟨car, some e, r.buf⟩
  | none =>
  let r := readNumberInt8 r.buf
  let car := { car with CurrentDriverId := r.val }
  match r.err with
  | some e => .done ⟨car, some e, r.buf⟩
  | none =>
  let r := readNumberByte r.buf
  let car := { car with Nationality := r.val }
  match r.err with
  | some e => .done ⟨car, some e, r.buf⟩
  | none =>
  let r := readNumberByte r.buf
  let driversCount := r.val
  match r.err with
  | some e => .done ⟨car, some e, r.buf⟩
  | none =>
  let car := { car with Drivers := List.replicate driversCount.val {} }
  readDrivers driversCount.val 0 r.buf car

/-- The loop `for j := byte(0); j < cameraCount; j++` of
`readTrackDataResponse`, by the number of iterations left. -/
def readCameras : Nat → Buffer → GoString → TrackData → Run TrackData
  | 0, b, _, trackData => .done ⟨trackData, none, b⟩
  | n + 1, b, camSetName, trackData =>
    match readString b with
    | .panicked => .panicked
    | .done r =>
    let cameraName := r.val
    match r.err with
    | some e => .done ⟨trackData, some e, r.buf⟩
    | none =>
    readCameras n r.buf camSetName
      { trackData with CameraSets :=
          trackData.CameraSets.set camSetName (trackData.CameraSets.get camSetName ++ [cameraName]) }

/-- The loop `for i := byte(0); i < cameraSetCount; i++` of
`readTrackDataResponse`, by the number of iterations left. -/
def readCameraSets : Nat → Buffer → TrackData → Run TrackData
  | 0, b, trackData => .done ⟨trackData, none, b⟩
  | n + 1, b, trackData =>
    match readString b with
    | .panicked => .panicked
    | .done r =>
    let camSetName := r.val
    match r.err with
    | some e => .done ⟨trackData, some e, r.buf⟩
    | none =>
    let rc := readNumberByte r.buf
    let cameraCount := rc.val
    match rc.err with
    | some e => .done ⟨trackData, some e, rc.buf⟩
    | none =>
    match readCameras cameraCount.val rc.buf camSetName trackData with
    | .panicked => .panicked
    | .done r =>
    match r.err with
    | some e => .done ⟨r.val, some e, r.buf⟩
    | none => readCameraSets n r.buf r.val

/-- The loop `for i := byte(0); i < hudCount; i++` of
`readTrackDataResponse`, by the number of iterations left; `err` is the
value of the variable `err` when the loop condition is tested. -/
def readHudPages : Nat → Buffer → Option GoError → TrackData → Run TrackData
  | 0, b, err, trackData => .done ⟨trackData, err, b⟩
  | n + 1, b, _, trackData =>
    match readString b with
    | .panicked => .panicked
    | .done r =>
    let hudName := r.val
    match r.err with
    | some e => .done ⟨trackData, some e, r.buf⟩
    | none => readHudPages n r.buf none { trackData with HudPages := trackData.HudPages ++ [hudName] }

def readTrackDataResponse (b : Buffer) : Run (Int × TrackData) :=
  let trackData : TrackData := {}
  let r := readNumberInt32 b
  let connectionId := r.val
  match r.err with
  | some e => .done ⟨(connectionId, trackData), some e, r.buf⟩
  | none =>
  match readString r.buf with
  | .panicked => .panicked
  | .done r =>
  let trackData := { trackData with Name := r.val }
  match r.err with
  | some e => .done ⟨(connectionId, trackData), some e, r.buf⟩
  | none =>
  let r := readNumberByte r.buf
  let trackData := { trackData with Id := r.val }
  match r.err with
  | some e => .done ⟨(connectionId, trackData), some e, r.buf⟩
  | none =>
  let r := readNumberInt32 r.buf
  let trackData := { trackData with Meters := r.val }
  match r.err with
  | some e => .done ⟨(connectionId, trackData), some e, r.buf⟩
  | none =>
  let r := readNumberByte r.buf
  let cameraSetCount := r.val
  match r.err with
  | some e => .done ⟨(connectionId, trackData), some e, r.buf⟩
  | none =>
  match readCameraSets cameraSetCount.val r.buf trackData with
  | .panicked => .panicked
  | .done r =>
  let trackData := r.val
  match r.err with
  | some e => .done ⟨(connectionId, trackData), some e, r.buf⟩
  | none =>
  let rh := readNumberByte r.buf
  let hudCount := rh.val
  match readHudPages hudCount.val rh.buf rh.err trackData with
  | .panicked => .panicked
  | .done r => .done ⟨(connectionId, r.val), r.err, r.buf⟩

def readBroadcastingEvent (b : Buffer) : Run BroadCastEvent :=
  let event : BroadCastEvent := {}
  let r := readNumberByte b
  let event := { event with Type_ := r.val }
  match r.err with
  | some e => .done ⟨event, some e, r.buf⟩
  | none =>
  match readString r.buf with
  | .panicked => .panicked
  | .done r =>
  let event := { event with Msg := r.val }
  match r.err with
  | some e => .done ⟨event, some e, r.buf⟩
  | none =>
  let r := readNumberInt32 r.buf
  let event := { event with TimeMs := r.val }
  match r.err with
  | some e => .done ⟨event, some e, r.buf⟩
  | none =>
  let r := readNumberInt32 r.buf
  let event := { event with CarId := r.val }
  match r.err with
  | some e => .done ⟨event, some e, r.buf⟩
  | none => .done ⟨event, none, r.buf⟩

/-- Every assignment before the last overwrites `err` without a test, so
only the values and the buffer flow from one statement to the next, and the
fields of `update` are assembled from the values read once the last one is
known; `now` is the reading of the clock handed out by `parseTime`. -/
def readRealtimeUpdateResponse (now : Int) (b : Buffer) : Run RealTimeUpdate :=
  let eventIndex := readNumberUint16 b
  let sessionIndex := readNumberUint16 eventIndex.buf
  let sessionType := readNumberByte sessionIndex.buf
  let phase := readNumberByte sessionType.buf
  let sessionTime := parseTime now (readNumberFloat32 phase.buf)
  let sessionEndTime := parseTime now (readNumberFloat32 sessionTime.buf)
  let focusedCarIndex := readNumberInt32 sessionEndTime.buf
  match readString focusedCarIndex.buf with
  | .panicked => .panicked
  | .done activeCameraSet =>
  match readString activeCameraSet.buf with
  | .panicked => .panicked
  | .done activeCamera =>
  match readString activeCamera.buf with
  | .panicked => .panicked
  | .done currentHudPage =>
  let isReplaying := readNumberBool currentHudPage.buf
  -- `if update.IsReplaying { ... }`: the two replay fields and the buffer after them
  let replay : Int × Int × Buffer :=
    if isReplaying.val then
      let replaySessionTime := parseTime now (readNumberFloat32 isReplaying.buf)
      let replayRemainingTime := parseDuration (readNumberFloat32 replaySessionTime.buf)
      (replaySessionTime.val, replayRemainingTime.val, replayRemainingTime.buf)
    else (0, 0, isReplaying.buf)
  let timeOfDay := parseTime now (readNumberFloat32 replay.2.2)
  let ambientTemp := readNumberByte timeOfDay.buf
  let trackTemp := readNumberByte ambientTemp.buf
  let clouds := divideByTen (readNumberByte trackTemp.buf)
  let rainLevel := divideByTen (readNumberByte clouds.buf)
  let wetness := divideByTen (readNumberByte rainLevel.buf)
  let bestSessionLap := readLap wetness.buf
  .done
    ⟨{ EventIndex := eventIndex.val
       SessionIndex := sessionIndex.val
       SessionType := sessionType.val
       Phase := phase.val
       SessionTime := sessionTime.val
       SessionEndTime := sessionEndTime.val
       FocusedCarIndex := focusedCarIndex.val
       ActiveCameraSet := activeCameraSet.val
       ActiveCamera := activeCamera.val
       CurrentHudPage := currentHudPage.val
       IsReplaying := isReplaying.val
       ReplaySessionTime := replay.1
       ReplayRemainingTime := replay.2.1
       TimeOfDay := timeOfDay.val
       AmbientTemp := ambientTemp.val
       TrackTemp := trackTemp.val
       Clouds := clouds.val
       RainLevel := rainLevel.val
       Wetness := wetness.val
       BestSessionLap := bestSessionLap.val },
      bestSessionLap.err, bestSessionLap.buf⟩

/-! ## Remaining outbound encoders (`buffer.go`) -/

def writeNumberFloat32 (b : Buffer) (data : Nat) : WRes :=
  ⟨none, b ++ leBytes 4 data⟩

def writeRequestInstantReplay (b : Buffer) (connectionId : Int) (startSessionTime : Nat)
    (durationMS : Nat) (initialFocusedCarIndex : Int) (initialCameraSet : GoString)
    (initialCamera : GoString) : WRes :=
  let w := writeNumberByte b OutboundMessageInstantReplayRequest
  match w.err with
  | some err => ⟨some err, w.buf⟩
  | none =>
  let w := writeNumberInt32 w.buf connectionId
  match w.err with
  | some err => ⟨some err, w.buf⟩
  | none =>
  let w := writeNumberFloat32 w.buf startSessionTime
  match w.err with
  | some err => ⟨some err, w.buf⟩
  | none =>
  let w := writeNumberFloat32 w.buf durationMS
  match w.err with
  | some err => ⟨some err, w.buf⟩
  | none =>
  let w := writeNumberInt32 w.buf initialFocusedCarIndex
  match w.err with
  | some err => ⟨some err, w.buf⟩
  | none =>
  let w := writeString w.buf initialCameraSet
  match w.err with
  | some err => ⟨some err, w.buf⟩
  | none =>
  let w := writeString w.buf initialCamera
  match w.err with
  | some err => ⟨some err, w.buf⟩
  | none => ⟨none, w.buf⟩

def writeRequestHudPage (b : Buffer) (connectionId : Int) (hudPage : GoString) : WRes :=
  let w := writeNumberByte b OutboundMessageInstantReplayRequest
  match w.err with
  | some err => ⟨some err, w.buf⟩
  | none =>
  let w := writeNumberInt32 w.buf connectionId
  match w.err with
  | some err => ⟨some err, w.buf⟩
  | none =>
  let w := writeString w.buf hudPage
  match w.err with
  | some err => ⟨some err, w.buf⟩
  | none => ⟨none, w.buf⟩

/-! ## Client driver (`udp_client.go`) -/

/-- The fields of `AccUDPClient` other than the socket; a `time.Duration` is
a number of nanoseconds, and a channel is the list of the values sent on it
so far (a send appends; blocking is not modelled). -/
structure AccUDPClient where
  timeOutDuration : Int := 0
  connectionId : Int := 0
  listening : Bool := false
  ErrChannel : List GoError := []
  BroadCastEventChannel : List BroadCastEvent := []
  TrackDataEventChannel : List TrackData := []
  EntryListCarEventChannel : List CarInfo := []
  EntryListEventChannel : List EntryList := []
  RealtimeUpdateEventChannel : List RealTimeUpdate := []
  RealtimeCarUpdateEventChannel : List RealTimeCarUpdate := []
  address : GoString := []
  displayName : GoString := []
  connectionPassword : GoString := []
  msRealtimeUpdateInterval : Int := 0
  commandPassword : GoString := []
  timeoutMs : Int := 0
  deriving DecidableEq, Repr

def NewAccUDPClient (address : GoString) (displayName : GoString)
    (connectionPassword : GoString) (msRealtimeUpdateInterval : Int)
    (commandPassword : GoString) (timeoutMs : Int) : AccUDPClient :=
  -- the struct literal never reads the `commandPassword` parameter
  let _ := commandPassword
  { address := address
    displayName := displayName
    connectionPassword := connectionPassword
    msRealtimeUpdateInterval := msRealtimeUpdateInterval
    commandPassword := connectionPassword
    timeoutMs := timeoutMs }

/-- The registration request that `Connect` encodes into its fresh buffer
(`var buffer bytes.Buffer; err = writeRegistration(&buffer, ...)`). -/
def AccUDPClient.connectRegistration (c : AccUDPClient) : WRes :=
  writeRegistration [] c.displayName c.connectionPassword c.msRealtimeUpdateInterval
    c.commandPassword

def ReadBufferSize : Nat := 32 * 1024

abbrev InboundMessage := Byte

def InboundMessageRegistrationResult : InboundMessage := 1
def InboundMessageRealtimeUpdate : InboundMessage := 2
def InboundMessageRealtimeCarUpdate : InboundMessage := 3
def InboundMessageEntryList : InboundMessage := 4
def InboundMessageTrackData : InboundMessage := 5
def InboundMessageEntryListCar : InboundMessage := 6
def InboundMessageBroadcastingEvent : InboundMessage := 7

/-- What one iteration of the loop of `listen` gets from outside: the clock
reading, the error of `c.conn.SetDeadline`, and the error and the bytes
`buff[:n]` of `c.conn.Read(buff[:])` (at most `ReadBufferSize` bytes). -/
structure ListenInput where
  now : Int := 0
  deadlineErr : Option GoError := none
  readErr : Option GoError := none
  received : List Byte := []
  deriving DecidableEq, Repr

/-- The deadline that `listen` hands to `c.conn.SetDeadline`:
`time.Now().Add(c.timeOutDuration)`. -/
def AccUDPClient.readDeadline (c : AccUDPClient) (now : Int) : Int :=
  now + c.timeOutDuration

/-- One iteration of the body of the loop `for c.listening` of `listen`;
every `continue` and the end of the `switch` return the client for the next
iteration.  The lines written with `log` are not modelled. -/
def AccUDPClient.listenStep (c : AccUDPClient) (i : ListenInput) : Outcome AccUDPClient :=
  match i.deadlineErr with
  | some err => .value { c with ErrChannel := c.ErrChannel ++ [err] }
  | none =>
  let n := i.received.length
  match i.readErr with
  | some err => .value { c with ErrChannel := c.ErrChannel ++ [err] }
  | none =>
  if n = ReadBufferSize then .value c
  else
  let buffer : Buffer := i.received
  let r := readNumberByte buffer
  let inboundMessage := r.val
  match r.err with
  | some err => .value { c with ErrChannel := c.ErrChannel ++ [err] }
  | none =>
  if inboundMessage = InboundMessageRegistrationResult then
    match readConnectionResponse r.buf with
    | .panicked => .panicked
    | .done r =>
    let c := { c with connectionId := r.val.1 }
    match r.err with
    | some err => .value { c with ErrChannel := c.ErrChannel ++ [err] }
    | none => .value c
  else if inboundMessage = InboundMessageBroadcastingEvent then
    match readBroadcastingEvent r.buf with
    | .panicked => .panicked
    | .done r =>
    let event := r.val
    match r.err with
    | some err => .value { c with ErrChannel := c.ErrChannel ++ [err] }
    | none => .value { c with BroadCastEventChannel := c.BroadCastEventChannel ++ [event] }
  else if inboundMessage = InboundMessageTrackData then
    match readTrackDataResponse r.buf with
    | .panicked => .panicked
    | .done r =>
    let event := r.val.2
    match r.err with
    | some err => .value { c with ErrChannel := c.ErrChannel ++ [err] }
    | none => .value { c with TrackDataEventChannel := c.TrackDataEventChannel ++ [event] }
  else if inboundMessage = InboundMessageEntryListCar then
    match readEntryListCarResponse r.buf with
    | .panicked => .panicked
    | .done r =>
    let event := r.val
    match r.err with
    | some err => .value { c with ErrChannel := c.ErrChannel ++ [err] }
    | none => .value { c with EntryListCarEventChannel := c.EntryListCarEventChannel ++ [event] }
  else if inboundMessage = InboundMessageEntryList then
    let r := readEntryListResponse r.buf
    let event := r.val.2
    match r.err with
    | some err => .value { c with ErrChannel := c.ErrChannel ++ [err] }
    | none => .value { c with EntryListEventChannel := c.EntryListEventChannel ++ [event] }
  else if inboundMessage = InboundMessageRealtimeUpdate then
    match readRealtimeUpdateResponse i.now r.buf with
    | .panicked => .panicked
    | .done r =>
    let event := r.val
    match r.err with
    | some err => .value { c with ErrChannel := c.ErrChannel ++ [err] }
    | none =>
      .value { c with RealtimeUpdateEventChannel := c.RealtimeUpdateEventChannel ++ [event] }
  else if inboundMessage = InboundMessageRealtimeCarUpdate then
    let r := readRealtimeCarUpdateResponse r.buf
    let event := r.val
    match r.err with
    | some err => .value { c with ErrChannel := c.ErrChannel ++ [err] }
    | none =>
      .value { c with RealtimeCarUpdateEventChannel := c.RealtimeCarUpdateEventChannel ++ [event] }
  else .value { c with ErrChannel := c.ErrChannel ++ [.New "unknown inboundMessagetype"] }

/-- The loop `for c.listening` of `listen` over the inputs of its successive
iterations: the guard is tested before each one, and the run is observed
until the inputs are used up. -/
def AccUDPClient.listen : AccUDPClient → List ListenInput → Outcome AccUDPClient
  | c, [] => .value c
  | c, i :: rest =>
    if c.listening then
      match c.listenStep i with
      | .panicked => .panicked
      | .value c => AccUDPClient.listen c rest
    else .value c

/-- What `Connect` gets from the network: the errors of `net.ResolveUDPAddr`
and `net.DialUDP`, and the count and the error of the `c.conn.Write` made by
`sendBuffer`. -/
structure ConnectInput where
  resolveErr : Option GoError := none
  dialErr : Option GoError := none
  written : Nat := 0
  writeErr : Option GoError := none
  deriving DecidableEq, Repr

/-- `sendBuffer`, with `n` and `writeErr` the results of
`c.conn.Write(buffer.Bytes())`. -/
def AccUDPClient.sendBuffer (_c : AccUDPClient) (buffer : Buffer) (n : Nat)
    (writeErr : Option GoError) : Option GoError :=
  if n ≠ buffer.length then some (.New "mismatch of length written bytes")
  else writeErr

/-- What `Connect` leaves: its error, the fields of the client when it
returns, and whether the statement `go c.listen()` was reached. -/
structure ConnectResult where
  err : Option GoError
  client : AccUDPClient
  listenStarted : Bool
  deriving DecidableEq, Repr

/-- `Connect`: no statement of it assigns a field of the client other than
the socket `c.conn`.  The lines written with `log` are not modelled. -/
def AccUDPClient.Connect (c : AccUDPClient) (i : ConnectInput) : ConnectResult :=
  match i.resolveErr with
  | some err => ⟨some err, c, false⟩
  | none =>
  match i.dialErr with
  | some err => ⟨some err, c, false⟩
  | none =>
  let w := c.connectRegistration
  match w.err with
  | some err => ⟨some err, c, false⟩
  | none =>
  let err := c.sendBuffer w.buf i.written i.writeErr
  -- `go c.listen()` runs `listen` on the client as it is here
  ⟨err, c, true⟩

/-! ## Specification helpers -/

/-- The `int32` stored little-endian at offset `off` of `b`. -/
def int32At (b : List Byte) (off : Nat) : Int :=
  toInt32 (leNat ((b.drop off).take 4))

/-- The `uint16` stored little-endian at offset `off` of `b`. -/
def uint16At (b : List Byte) (off : Nat) : Nat :=
  leNat ((b.drop off).take 2)

/-- A lap record with one split (`5`): lap time 1, car 2, driver 3,
flags invalid = 0, valid-for-best = 1, out-lap = 0, in-lap = 1. -/
def lapBuffer1 : Buffer := [1, 0, 0, 0, 2, 0, 3, 0, 1, 5, 0, 0, 0, 0, 1, 0, 1]

/-- An empty lap record: lap time 0, car 0, driver 0, no split, all four
flags 0 (13 bytes). -/
def emptyLapBytes : Buffer := [0, 0, 0, 0, 0, 0, 0, 0, 0, 0, 0, 0, 0]

/-- A complete per-car update (without the leading tag) whose raw gear
byte is `gear`: car 1, driver 0, one driver, the gear, position, yaw and
spline position 0.0, location 1, speed, positions, laps and delta 0, and
three empty laps. -/
def carUpdateBuffer (gear : Byte) : Buffer :=
  [1, 0, 0, 0, 1, gear] ++ [0, 0, 0, 0, 0, 0, 0, 0, 0, 0, 0, 0] ++ [1] ++
    [0, 0, 0, 0, 0, 0, 0, 0] ++ [0, 0, 0, 0] ++ [0, 0] ++ [0, 0, 0, 0] ++
    emptyLapBytes ++ emptyLapBytes ++ emptyLapBytes

/-- The error, if any, does not carry the text of the error that `listen`
sends for an unrecognised type tag. -/
def NotUnknown (e : Option GoError) : Prop :=
  ∀ err, e = some err → err.Error ≠ (GoError.New "unknown inboundMessagetype").Error

/-- What a recognised tag asks of one step of the receive loop, given the
outcome `r` of the decoder of that tag: a panic of the decoder is one of the
step, an error of the decoder goes to the error sink and nothing else
changes, and a decoded value is published by `publish`. -/
def dispatched {α : Type} (c : AccUDPClient) (r : Run α) (publish : α → AccUDPClient) :
    Outcome AccUDPClient :=
  match r with
  | .panicked => .panicked
  | .done r =>
    match r.err with
    | some err => .value { c with ErrChannel := c.ErrChannel ++ [err] }
    | none => .value (publish r.val)

/-- The bytes of the text `unknown inboundMessagetype`. -/
def unknownTypeText : GoString :=
  [117, 110, 107, 110, 111, 119, 110, 32, 105, 110, 98, 111, 117, 110, 100, 77, 101, 115,
    115, 97, 103, 101, 116, 121, 112, 101]

/-- A registration result datagram (tag 1, connection id 9, refused, not
read-only) whose error message is the text `unknown inboundMessagetype`. -/
def registrationUnknownText : List Byte := [1, 9, 0, 0, 0, 0, 0, 26, 0] ++ unknownTypeText

/-- A call that returns does not return the error of an unrecognised tag. -/
def RunNotUnknown {α : Type} (r : Run α) : Prop :=
  ∀ x, r = .done x → NotUnknown x.err

/-- A datagram of `ReadBufferSize` bytes that starts like an entry list
(tag 4, connection id 0, count 0). -/
def fullDatagram : List Byte := 4 :: List.replicate 32767 0

/-- Track data whose HUD-page count is 1 and that ends right after it:
connection id 1, empty name, track id 5, 10 metres, no camera set. -/
def trackDataNoHudName : Buffer := [1, 0, 0, 0, 0, 0, 5, 10, 0, 0, 0, 0, 1]

/-- The driver `"A" "B" "C"` of category 1 and nationality 2. -/
def driverABC : DriverInfo :=
  { FirstName := [65], LastName := [66], ShortName := [67], Category := 1, Nationality := 2 }

/-- A registration result with connection id 9, success flag 1, read-only
flag 0 and the error message `"no"`, with its leading tag 1. -/
def registrationRefused : List Byte := [1, 9, 0, 0, 0, 1, 0, 2, 0, 110, 111]

/-- A registration result cut after two bytes of its connection id, with its
leading tag 1. -/
def registrationCut : List Byte := [1, 9, 0]

/-- A session update (without the leading tag) cut before the last byte of
its lap: event 1, session 2, type 0, phase 5, two times, focused car 3, three
empty strings, not replaying, time of day, temperatures 20 and 25, clouds,
rain and wetness 1, 2, 3, and the first 12 bytes of an empty lap. -/
def sessionUpdateCut : Buffer :=
  [1, 0, 2, 0, 0, 5, 0, 0, 0, 0, 0, 0, 0, 0, 3, 0, 0, 0] ++ [0, 0, 0, 0, 0, 0] ++ [0] ++
    [0, 0, 0, 0] ++ [20, 25, 1, 2, 3] ++ [0, 0, 0, 0, 0, 0, 0, 0, 0, 0, 0, 0]

/-- Track data with two camera sets: `"a"` with no camera and `"b"` with the
camera `"c"`; no HUD page. -/
def trackDataEmptySet : Buffer :=
  [1, 0, 0, 0, 0, 0, 5, 10, 0, 0, 0, 2, 1, 0, 97, 0, 1, 0, 98, 1, 1, 0, 99, 0]

/-- A registration result datagram (tag 1, connection id 9, success, not
read-only) whose error message declares the length -1 (`0xFF 0xFF`). -/
def registrationNegativeLength : List Byte := [1, 9, 0, 0, 0, 1, 0, 255, 255]

/-! ## Primitive reads -/

theorem readFull_of_le {n : Nat} {b : Buffer} (h : n ≤ b.length) :
    readFull n b = ⟨b.take n, none, b.drop n⟩ := by
  simp [readFull, h]

theorem readFull_err_none_iff (n : Nat) (b : Buffer) :
    (readFull n b).err = none ↔ n ≤ b.length := by
  unfold readFull
  split
  · simpa
  · split <;> simp <;> omega

theorem readNumberInt32_err_none_iff (b : Buffer) :
    (readNumberInt32 b).err = none ↔ 4 ≤ b.length := by
  rw [← readFull_err_none_iff]
  unfold readNumberInt32
  cases h : (readFull 4 b).err <;> simp [h]

theorem readNumberInt32_of_le {b : Buffer} (h : 4 ≤ b.length) :
    readNumberInt32 b = ⟨toInt32 (leNat (b.take 4)), none, b.drop 4⟩ := by
  simp [readNumberInt32, readFull_of_le h]

theorem readNumberUint16_err_none_iff (b : Buffer) :
    (readNumberUint16 b).err = none ↔ 2 ≤ b.length := by
  rw [← readFull_err_none_iff]
  unfold readNumberUint16
  cases h : (readFull 2 b).err <;> simp [h]

theorem readNumberUint16_of_le {b : Buffer} (h : 2 ≤ b.length) :
    readNumberUint16 b = ⟨leNat (b.take 2), none, b.drop 2⟩ := by
  simp [readNumberUint16, readFull_of_le h]

theorem readNumberInt16_err_none_iff (b : Buffer) :
    (readNumberInt16 b).err = none ↔ 2 ≤ b.length := by
  rw [← readFull_err_none_iff]
  unfold readNumberInt16
  cases h : (readFull 2 b).err <;> simp [h]

theorem readNumberInt16_of_le {b : Buffer} (h : 2 ≤ b.length) :
    readNumberInt16 b = ⟨toInt16 (leNat (b.take 2)), none, b.drop 2⟩ := by
  simp [readNumberInt16, readFull_of_le h]

theorem readNumberByte_err_none_iff (b : Buffer) :
    (readNumberByte b).err = none ↔ 1 ≤ b.length := by
  rw [← readFull_err_none_iff]
  unfold readNumberByte
  cases h : (readFull 1 b).err <;> simp [h]

theorem readNumberByte_cons (x : Byte) (b : Buffer) :
    readNumberByte (x :: b) = ⟨x, none, b⟩ := by
  simp [readNumberByte, readFull]

theorem readNumberBool_err_none_iff (b : Buffer) :
    (readNumberBool b).err = none ↔ 1 ≤ b.length := by
  rw [← readFull_err_none_iff]
  unfold readNumberBool
  cases h : (readFull 1 b).err <;> simp [h]

theorem readNumberBool_cons (x : Byte) (b : Buffer) :
    readNumberBool (x :: b) = ⟨x != 0, none, b⟩ := by
  simp [readNumberBool, readFull]

/-! ## `readLap` and its splits -/

/-- The `n` consecutive `int32` values at the front of `b`. -/
theorem readLapSplits_ok (n : Nat) : ∀ (b : Buffer) (lap : LapInfo),
    (readLapSplits n b lap).err = none →
      4 * n ≤ b.length ∧ (readLapSplits n b lap).buf = b.drop (4 * n) ∧
      (readLapSplits n b lap).val =
        { lap with Splits := lap.Splits ++ (List.range n).map (fun i => int32At b (4 * i)) } := by
  induction n with
  | zero => intro b lap _; simp [readLapSplits]
  | succ n ih =>
    intro b lap h
    unfold readLapSplits at h ⊢
    cases he : (readNumberInt32 b).err with
    | some e => simp [he] at h
    | none =>
      have hl : 4 ≤ b.length := (readNumberInt32_err_none_iff b).1 he
      simp only [he] at h ⊢
      rw [readNumberInt32_of_le hl] at h ⊢
      simp only at h ⊢
      obtain ⟨h1, h2, h3⟩ := ih _ _ h
      simp only [List.length_drop] at h1
      refine ⟨by omega, ?_, ?_⟩
      · rw [h2, List.drop_drop]; congr 1; omega
      · rw [h3]
        simp only [List.range_succ_eq_map, List.map_cons, List.map_map, List.append_assoc,
          List.singleton_append]
        have hc : ((fun i => int32At b (4 * i)) ∘ Nat.succ) = fun i => int32At b (4 * (i + 1)) := rfl
        rw [hc]
        have hm : List.map (fun i => int32At (List.drop 4 b) (4 * i)) (List.range n)
            = List.map (fun i => int32At b (4 * (i + 1))) (List.range n) := by
          apply List.map_congr_left
          intro i _
          simp only [int32At, List.drop_drop]
          have : 4 + 4 * i = 4 * (i + 1) := by omega
          rw [this]
        rw [hm]
        have h0 : int32At b (4 * 0) = toInt32 (leNat (List.take 4 b)) := by simp [int32At]
        rw [h0]

theorem padSplitsLoop_eq (n : Nat) : ∀ splits : List Int,
    padSplitsLoop n splits = splits ++ List.replicate n 0 := by
  induction n with
  | zero => intro s; simp [padSplitsLoop]
  | succ n ih =>
    intro s
    simp [padSplitsLoop, ih, List.replicate_succ]

theorem padSplits_eq (splits : List Int) :
    padSplits splits = splits ++ List.replicate (3 - splits.length) 0 := by
  simp [padSplits, padSplitsLoop_eq]


theorem readNumberInt32_cons (x0 x1 x2 x3 : Byte) (b : Buffer) :
    readNumberInt32 (x0 :: x1 :: x2 :: x3 :: b) = ⟨toInt32 (leNat [x0, x1, x2, x3]), none, b⟩ := by
  simp [readNumberInt32, readFull]

theorem readNumberUint16_cons (x0 x1 : Byte) (b : Buffer) :
    readNumberUint16 (x0 :: x1 :: b) = ⟨leNat [x0, x1], none, b⟩ := by
  simp [readNumberUint16, readFull]

theorem readNumberInt16_cons (x0 x1 : Byte) (b : Buffer) :
    readNumberInt16 (x0 :: x1 :: b) = ⟨toInt16 (leNat [x0, x1]), none, b⟩ := by
  simp [readNumberInt16, readFull]

theorem readNumberBool_nil : (readNumberBool []).err = some .EOF := by
  simp [readNumberBool, readFull]

theorem readLap_ok_splits (b : Buffer) (h : (readLap b).err = none) :
    9 ≤ b.length ∧
    (readLap b).val.Splits =
      padSplits ((List.range (b.getD 8 0).val).map (fun i => int32At b (9 + 4 * i))) := by
  rcases b with _ | ⟨x0, _ | ⟨x1, _ | ⟨x2, _ | ⟨x3, _ | ⟨x4, _ | ⟨x5, _ | ⟨x6, _ | ⟨x7, _ | ⟨x8, rest⟩⟩⟩⟩⟩⟩⟩⟩⟩
  iterate 9 simp [readLap, readNumberInt32, readNumberUint16, readNumberByte, readFull] at h
  simp only [readLap, readNumberInt32_cons, readNumberUint16_cons, readNumberByte_cons] at h ⊢
  cases h5 : (readLapSplits x8.val rest ⟨toInt32 (leNat [x0, x1, x2, x3]), [], leNat [x4, x5],
      leNat [x6, x7], false, false, 0⟩).err with
  | some e => simp [h5] at h
  | none =>
  obtain ⟨hl, hb, hv⟩ := readLapSplits_ok _ _ _ h5
  simp only [h5, hb, hv] at h ⊢
  rcases hd : List.drop (4 * x8.val) rest with _ | ⟨f0, _ | ⟨f1, _ | ⟨f2, _ | ⟨f3, tail⟩⟩⟩⟩
  iterate 4 simp [hd, readNumberBool, readFull] at h
  simp only [hd, readNumberBool_cons]
  refine ⟨by simp, ?_⟩
  simp only [List.getD_cons_succ, List.getD_cons_zero, List.nil_append]
  congr 1
  apply List.map_congr_left
  intro i _
  simp only [int32At]
  have e9 : 9 + 4 * i = 4 * i + 9 := by omega
  rw [e9]
  simp only [List.drop_succ_cons]

/-- C1: whenever `readLap` succeeds, with `k` the split count byte (offset 8
of the buffer), the returned `Splits` has length `max k 3`, its first `k`
entries are the `k` transmitted `int32` values in wire order (the `i`-th at
offset `9 + 4 * i`), and every later entry is `0`. -/
theorem readLap_splits (b : Buffer) (h : (readLap b).err = none) :
    9 ≤ b.length ∧
    (readLap b).val.Splits.length = max (b.getD 8 0).val 3 ∧
    (∀ i, i < (b.getD 8 0).val →
      (readLap b).val.Splits[i]? = some (int32At b (9 + 4 * i))) ∧
    (∀ i, (b.getD 8 0).val ≤ i → i < max (b.getD 8 0).val 3 →
      (readLap b).val.Splits[i]? = some 0) := by
  obtain ⟨hlen, hs⟩ := readLap_ok_splits b h
  rw [hs, padSplits_eq]
  generalize (b.getD 8 0).val = k
  refine ⟨hlen, ?_, ?_, ?_⟩
  · simp only [List.length_append, List.length_map, List.length_range, List.length_replicate]
    omega
  · intro i hi
    rw [List.getElem?_append_left (by simpa using hi), List.getElem?_map,
      List.getElem?_range hi]
    rfl
  · intro i hk hi
    rw [List.getElem?_append_right (by simpa using hk)]
    simp only [List.length_map, List.length_range]
    have hlt : i - k < 3 - k := by omega
    rw [List.getElem?_replicate, if_pos hlt]

/-- Witness for C1: a lap with one transmitted split. -/
theorem readLap_splits_witness :
    (readLap lapBuffer1).err = none ∧
    (9 ≤ lapBuffer1.length ∧
    (readLap lapBuffer1).val.Splits.length = max (lapBuffer1.getD 8 0).val 3 ∧
    (∀ i, i < (lapBuffer1.getD 8 0).val →
      (readLap lapBuffer1).val.Splits[i]? = some (int32At lapBuffer1 (9 + 4 * i))) ∧
    (∀ i, (lapBuffer1.getD 8 0).val ≤ i → i < max (lapBuffer1.getD 8 0).val 3 →
      (readLap lapBuffer1).val.Splits[i]? = some 0)) :=
  ⟨by decide, readLap_splits lapBuffer1 (by decide)⟩

/-! ## Little-endian conversions -/

theorem leBytes_length (w : Nat) : ∀ v : Nat, (leBytes w v).length = w := by
  induction w with
  | zero => intro v; rfl
  | succ w ih => intro v; simp [leBytes, ih]

theorem leNat_leBytes (w : Nat) : ∀ v : Nat, leNat (leBytes w v) = v % 256 ^ w := by
  induction w with
  | zero => intro v; simp [leBytes, leNat, Nat.mod_one]
  | succ w ih =>
    intro v
    simp only [leBytes, leNat, ih, Fin.ofNat, Nat.mod_mod]
    rw [pow_succ', Nat.mod_mul]

theorem leBytes_two_mod (v : Nat) : leBytes 2 (v % 65536) = leBytes 2 v := by
  simp only [leBytes]
  have h1 : v % 65536 % 256 = v % 256 := by omega
  have h2 : v % 65536 / 256 % 256 = v / 256 % 256 := by omega
  rw [h1, h2]

theorem toInt16_of_lt {n : Nat} (h : n < 32768) : toInt16 n = (n : Int) := by
  have hm : n % 65536 = n := Nat.mod_eq_of_lt (by omega)
  unfold toInt16
  rw [hm, if_pos h]

theorem toInt16_lt (n : Nat) : toInt16 n < 32768 := by
  unfold toInt16
  split <;> omega

theorem toInt16_mod (n : Nat) : toInt16 (n % 65536) = toInt16 n := by
  unfold toInt16
  rw [Nat.mod_mod]

theorem toUint16_toInt16 (n : Nat) : toUint16 (toInt16 n) = n % 65536 := by
  unfold toUint16 toInt16
  split <;> omega

theorem toInt32_toUint32 {x : Int} (hlo : -2147483648 ≤ x) (hhi : x < 2147483648) :
    toInt32 (toUint32 x) = x := by
  unfold toInt32 toUint32
  split <;> omega

theorem leNat_leBytes_four (v : Nat) : leNat (leBytes 4 v) = v % 4294967296 := by
  rw [leNat_leBytes]
  norm_num

theorem leNat_leBytes_two (v : Nat) : leNat (leBytes 2 v) = v % 65536 := by
  rw [leNat_leBytes]
  norm_num

theorem toInt32_mod (n : Nat) : toInt32 (n % 4294967296) = toInt32 n := by
  unfold toInt32
  rw [Nat.mod_mod]

/-! ## `readEntryListResponse` -/

theorem readEntries_ok (n : Nat) : ∀ (i : Nat) (b : Buffer) (l : EntryList),
    2 * n ≤ b.length → i + n ≤ l.length →
      (readEntries n i b l).err = none ∧
      (readEntries n i b l).val.length = l.length ∧
      ∀ j, (readEntries n i b l).val[j]? =
        if i ≤ j ∧ j < i + n then some (uint16At b (2 * (j - i))) else l[j]? := by
  induction n with
  | zero =>
    intro i b l _ _
    refine ⟨rfl, rfl, ?_⟩
    intro j
    have hn : ¬ (i ≤ j ∧ j < i + 0) := by omega
    rw [if_neg hn]
    rfl
  | succ n ih =>
    intro i b l hb hl
    have h2 : 2 ≤ b.length := by omega
    unfold readEntries
    rw [readNumberUint16_of_le h2]
    simp only
    obtain ⟨h1, h3, h4⟩ := ih (i + 1) (b.drop 2) (l.set i (leNat (b.take 2)))
      (by simp only [List.length_drop]; omega) (by simp only [List.length_set]; omega)
    refine ⟨h1, ?_, ?_⟩
    · rw [h3, List.length_set]
    · intro j
      rw [h4]
      by_cases hj : j = i
      · subst hj
        have hn : ¬ (j + 1 ≤ j ∧ j < j + 1 + n) := by omega
        have hp : j ≤ j ∧ j < j + (n + 1) := by omega
        rw [if_neg hn, if_pos hp, List.getElem?_set_self (by omega)]
        simp [uint16At]
      · by_cases hr : i + 1 ≤ j ∧ j < i + 1 + n
        · have hp : i ≤ j ∧ j < i + (n + 1) := by omega
          rw [if_pos hr, if_pos hp]
          simp only [uint16At, List.drop_drop]
          have e : 2 + 2 * (j - (i + 1)) = 2 * (j - i) := by omega
          rw [e]
        · have hp : ¬ (i ≤ j ∧ j < i + (n + 1)) := by omega
          rw [if_neg hr, if_neg hp, List.getElem?_set_ne (Ne.symm hj)]

theorem readEntries_short (n : Nat) : ∀ (i : Nat) (b : Buffer) (l : EntryList),
    b.length < 2 * n → (readEntries n i b l).err ≠ none := by
  induction n with
  | zero => intro i b l h; omega
  | succ n ih =>
    intro i b l h
    unfold readEntries
    cases he : (readNumberUint16 b).err with
    | some e => simp [he]
    | none =>
      have h2 : 2 ≤ b.length := (readNumberUint16_err_none_iff b).1 he
      rw [readNumberUint16_of_le h2]
      apply ih
      simp only [List.length_drop]
      omega

/-- C2: on a buffer made of a 4-byte connection id, a little-endian
`uint16` count `N` and the bytes `rest`: when `rest` holds at least `2 * N`
bytes, `readEntryListResponse` returns no error and exactly `N` ids, the
`i`-th being the little-endian `uint16` at offset `2 * i` of `rest`; when
`rest` holds fewer than `2 * N` bytes it returns an error. -/
theorem readEntryListResponse_count (c0 c1 c2 c3 n0 n1 : Byte) (rest : Buffer) :
    (2 * (n0.val + 256 * n1.val) ≤ rest.length →
      (readEntryListResponse (c0 :: c1 :: c2 :: c3 :: n0 :: n1 :: rest)).err = none ∧
      (readEntryListResponse (c0 :: c1 :: c2 :: c3 :: n0 :: n1 :: rest)).val.2.length
        = n0.val + 256 * n1.val ∧
      ∀ i, i < n0.val + 256 * n1.val →
        (readEntryListResponse (c0 :: c1 :: c2 :: c3 :: n0 :: n1 :: rest)).val.2[i]?
          = some (uint16At rest (2 * i))) ∧
    (rest.length < 2 * (n0.val + 256 * n1.val) →
      (readEntryListResponse (c0 :: c1 :: c2 :: c3 :: n0 :: n1 :: rest)).err ≠ none) := by
  have hN : leNat [n0, n1] = n0.val + 256 * n1.val := by simp [leNat]
  simp only [readEntryListResponse, readNumberInt32_cons, readNumberUint16_cons, hN]
  constructor
  · intro h
    obtain ⟨h1, h2, h3⟩ := readEntries_ok (n0.val + 256 * n1.val) 0 rest
      (List.replicate (n0.val + 256 * n1.val) 0) h (by simp)
    refine ⟨h1, ?_, ?_⟩
    · rw [h2, List.length_replicate]
    · intro i hi
      have hp : 0 ≤ i ∧ i < 0 + (n0.val + 256 * n1.val) := by omega
      rw [h3, if_pos hp, Nat.sub_zero]
  · intro h
    exact readEntries_short _ _ _ _ h

/-- Witness for C2: two ids `1` and `256` are decoded from four bytes, and
three bytes are too few for a declared count of two. -/
theorem readEntryListResponse_count_witness :
    ((readEntryListResponse [7, 0, 0, 0, 2, 0, 1, 0, 0, 1]).err = none ∧
      (readEntryListResponse [7, 0, 0, 0, 2, 0, 1, 0, 0, 1]).val.2.length
        = (2 : Byte).val + 256 * (0 : Byte).val ∧
      ∀ i, i < (2 : Byte).val + 256 * (0 : Byte).val →
        (readEntryListResponse [7, 0, 0, 0, 2, 0, 1, 0, 0, 1]).val.2[i]?
          = some (uint16At [1, 0, 0, 1] (2 * i))) ∧
    (readEntryListResponse [7, 0, 0, 0, 2, 0, 1, 0, 0]).err ≠ none :=
  ⟨(readEntryListResponse_count 7 0 0 0 2 0 [1, 0, 0, 1]).1 (by decide),
   (readEntryListResponse_count 7 0 0 0 2 0 [1, 0, 0]).2 (by decide)⟩

/-! ## Gear of a per-car update -/

/-- C3: a complete per-car update whose raw gear byte is `1` (reverse)
decodes without error, and the reported gear is the byte `255`, not the
signed value `1 - 2 = -1`; raw bytes `2` and `5` give `0` and `3`. -/
theorem readRealtimeCarUpdateResponse_gear_reverse :
    (readRealtimeCarUpdateResponse (carUpdateBuffer 1)).err = none ∧
    (readRealtimeCarUpdateResponse (carUpdateBuffer 1)).val.Gear = 255 ∧
    (((readRealtimeCarUpdateResponse (carUpdateBuffer 1)).val.Gear.val : Int) ≠ 1 - 2) ∧
    (readRealtimeCarUpdateResponse (carUpdateBuffer 2)).val.Gear = 0 ∧
    (readRealtimeCarUpdateResponse (carUpdateBuffer 5)).val.Gear = 3 := by
  decide

/-! ## Strings -/

theorem readString_cons (l0 l1 : Byte) (rest : Buffer) :
    readString (l0 :: l1 :: rest) =
      if toInt16 (leNat [l0, l1]) < 0 then .panicked
      else .done
        ⟨(rest.Read (List.replicate (toInt16 (leNat [l0, l1])).toNat 0)).p,
          if toInt16 (rest.Read (List.replicate (toInt16 (leNat [l0, l1])).toNat 0)).n
              ≠ toInt16 (leNat [l0, l1])
            then some (GoError.New "mis")
            else (rest.Read (List.replicate (toInt16 (leNat [l0, l1])).toNat 0)).err,
          (rest.Read (List.replicate (toInt16 (leNat [l0, l1])).toNat 0)).buf⟩ := by
  simp only [readString, readNumberInt16_cons]

theorem Buffer.Read_n_of_short (b : Buffer) (p : List Byte) (h : b.length < p.length) :
    (b.Read p).n = b.length := by
  unfold Buffer.Read
  split
  · split <;> simp_all
  · simp only
    omega

/-- C4: when the 2-byte little-endian signed length `L` at the front of the
buffer is positive and fewer than `L` bytes follow it, `readString` returns
(it does not panic) and its error is non-nil: the error `"mis"`. -/
theorem readString_short (l0 l1 : Byte) (rest : Buffer)
    (hpos : 0 < toInt16 (l0.val + 256 * l1.val))
    (hshort : (rest.length : Int) < toInt16 (l0.val + 256 * l1.val)) :
    ∃ r, readString (l0 :: l1 :: rest) = .done r ∧ r.err = some (GoError.New "mis") ∧
      r.err ≠ none := by
  have hN : leNat [l0, l1] = l0.val + 256 * l1.val := by simp [leNat]
  rw [readString_cons, hN]
  have hlt := toInt16_lt (l0.val + 256 * l1.val)
  generalize toInt16 (l0.val + 256 * l1.val) = L at hpos hshort hlt
  rw [if_neg (by omega)]
  refine ⟨_, rfl, ?_⟩
  have hn : (rest.Read (List.replicate L.toNat 0)).n = rest.length :=
    Buffer.Read_n_of_short _ _ (by rw [List.length_replicate]; omega)
  have hne : toInt16 (rest.Read (List.replicate L.toNat 0)).n ≠ L := by
    rw [hn, toInt16_of_lt (by omega)]
    omega
  simp only [if_pos hne]
  simp

/-- Witness for C4: length 3 declared, two bytes present. -/
theorem readString_short_witness :
    0 < toInt16 ((3 : Byte).val + 256 * (0 : Byte).val) ∧
    (([104, 105] : Buffer).length : Int) < toInt16 ((3 : Byte).val + 256 * (0 : Byte).val) ∧
    ∃ r, readString (3 :: 0 :: [104, 105]) = .done r ∧ r.err = some (GoError.New "mis") ∧
      r.err ≠ none :=
  ⟨by decide, by decide, readString_short 3 0 [104, 105] (by decide) (by decide)⟩

theorem writeString_eq (b : Buffer) (s : GoString) :
    writeString b s = ⟨none, b ++ leBytes 2 s.length ++ s⟩ := by
  have h : leBytes 2 (toUint16 (toInt16 s.length)) = leBytes 2 s.length := by
    rw [toUint16_toInt16, leBytes_two_mod]
  simp [writeString, writeNumberInt16, h]

theorem Buffer.Read_exact (s rest : Buffer) :
    Buffer.Read (s ++ rest) (List.replicate s.length 0) = ⟨s, s.length, none, rest⟩ := by
  unfold Buffer.Read
  split
  · rename_i h
    have hs : s = [] := by
      apply List.eq_nil_of_length_eq_zero
      rw [List.length_append] at h
      omega
    have hr : rest = [] := by
      apply List.eq_nil_of_length_eq_zero
      rw [List.length_append] at h
      omega
    subst hs hr
    simp
  · have hmin : min (List.replicate s.length (0 : Byte)).length (s ++ rest).length = s.length := by
      rw [List.length_replicate, List.length_append]
      omega
    simp only [hmin]
    simp

theorem readString_encoded (s rest : Buffer) (h : s.length ≤ 32767) :
    readString (leBytes 2 s.length ++ s ++ rest) = .done ⟨s, none, rest⟩ := by
  have hb : leBytes 2 s.length
      = [Fin.ofNat (s.length % 256), Fin.ofNat (s.length / 256 % 256)] := rfl
  have hL : toInt16 (leNat [Fin.ofNat (s.length % 256), Fin.ofNat (s.length / 256 % 256)])
      = (s.length : Int) := by
    rw [← hb, leNat_leBytes_two, toInt16_mod, toInt16_of_lt (by omega)]
  rw [hb]
  simp only [List.cons_append, List.nil_append]
  rw [readString_cons, hL]
  rw [if_neg (by omega), Int.toNat_ofNat, Buffer.Read_exact]
  simp only
  rw [toInt16_of_lt (by omega)]
  simp

/-- C5 (as amended): for every string `s` of at most 32767 bytes,
`writeString` on an empty buffer returns no error and writes the 2-byte
little-endian length of `s` followed by exactly the bytes of `s`, and
`readString` on that output returns `s` with no error and leaves the buffer
empty. -/
theorem writeString_readString_roundtrip (s : GoString) (h : s.length ≤ 32767) :
    writeString [] s = ⟨none, leBytes 2 s.length ++ s⟩ ∧
    leNat (leBytes 2 s.length) = s.length ∧
    (writeString [] s).buf.length = 2 + s.length ∧
    readString (writeString [] s).buf = .done ⟨s, none, []⟩ := by
  have hw := writeString_eq [] s
  rw [List.nil_append] at hw
  refine ⟨hw, ?_, ?_, ?_⟩
  · rw [leNat_leBytes_two]
    omega
  · rw [hw]
    simp only [List.length_append, leBytes_length]
  · rw [hw]
    have h2 := readString_encoded s [] h
    rw [List.append_nil] at h2
    exact h2

/-- Witness for C5: the two-byte string `"hi"`. -/
theorem writeString_readString_roundtrip_witness :
    ([104, 105] : GoString).length ≤ 32767 ∧
    writeString [] [104, 105] = ⟨none, leBytes 2 ([104, 105] : GoString).length ++ [104, 105]⟩ ∧
    leNat (leBytes 2 ([104, 105] : GoString).length) = ([104, 105] : GoString).length ∧
    (writeString [] [104, 105]).buf.length = 2 + ([104, 105] : GoString).length ∧
    readString (writeString [] [104, 105]).buf = .done ⟨[104, 105], none, []⟩ :=
  ⟨by decide, writeString_readString_roundtrip [104, 105] (by decide)⟩

/-- C5 (counterexample to the claim as stated): for the string of 32768
zero bytes the length written is read back as `-32768`, so `readString` on
the output of `writeString` panics instead of returning the string. -/
theorem writeString_readString_long_fails :
    readString (writeString [] (List.replicate 32768 (0 : Byte))).buf = .panicked ∧
    readString (writeString [] (List.replicate 32768 (0 : Byte))).buf
      ≠ .done ⟨List.replicate 32768 (0 : Byte), none, []⟩ := by
  have hl : (List.replicate 32768 (0 : Byte)).length = 32768 := List.length_replicate _ _
  generalize List.replicate 32768 (0 : Byte) = s0 at hl
  have hb : leBytes 2 32768 = [0, 128] := by decide
  have hL : toInt16 (leNat [(0 : Byte), 128]) < 0 := by decide
  have hp : readString (writeString [] s0).buf = .panicked := by
    rw [writeString_eq, List.nil_append, hl, hb]
    simp only [List.cons_append, List.nil_append]
    rw [readString_cons, if_pos hL]
  rw [hp]
  exact ⟨rfl, by simp⟩

/-! ## `readConnectionResponse` -/

/-- C6: on a complete registration result (4-byte connection id, success
byte, read-only byte, length-prefixed error message of at most 32767 bytes),
`readConnectionResponse` returns, and its error is non-nil exactly when the
message is non-empty, whatever the success byte; with an empty message it
returns the decoded connection id, success flag and read-only flag. -/
theorem readConnectionResponse_error_iff (c0 c1 c2 c3 sb rb : Byte) (msg : GoString)
    (rest : Buffer) (h : msg.length ≤ 32767) :
    ∃ r, readConnectionResponse
        (c0 :: c1 :: c2 :: c3 :: sb :: rb :: (leBytes 2 msg.length ++ msg ++ rest)) = .done r ∧
      (r.err ≠ none ↔ msg ≠ []) ∧
      (msg ≠ [] → r.err = some (.NewOfBytes msg)) ∧
      (msg = [] → r.err = none ∧
        r.val = (toInt32 (leNat [c0, c1, c2, c3]), sb != 0, rb != 0)) := by
  simp only [readConnectionResponse, readNumberInt32_cons, readNumberBool_cons,
    readString_encoded msg rest h]
  by_cases hm : msg = []
  · subst hm
    rw [if_neg (by simp)]
    exact ⟨_, rfl, by simp, by simp, by simp⟩
  · rw [if_pos hm]
    refine ⟨_, rfl, ?_, ?_, ?_⟩
    · simp [hm]
    · intro _; rfl
    · intro h0; exact absurd h0 hm

/-- Witness for C6: success flag set together with the message `"no"`. -/
theorem readConnectionResponse_error_iff_witness :
    ([110, 111] : GoString).length ≤ 32767 ∧
    ∃ r, readConnectionResponse
        (5 :: 0 :: 0 :: 0 :: 1 :: 0 ::
          (leBytes 2 ([110, 111] : GoString).length ++ [110, 111] ++ [])) = .done r ∧
      (r.err ≠ none ↔ ([110, 111] : GoString) ≠ []) ∧
      (([110, 111] : GoString) ≠ [] → r.err = some (.NewOfBytes [110, 111])) ∧
      (([110, 111] : GoString) = [] → r.err = none ∧
        r.val = (toInt32 (leNat [5, 0, 0, 0]), (1 : Byte) != 0, (0 : Byte) != 0)) :=
  ⟨by decide, readConnectionResponse_error_iff 5 0 0 0 1 0 [110, 111] [] (by decide)⟩

/-! ## Outbound encoders -/

theorem writeFocusedCar_eq (connectionId : Int) (carIndex : Optional Nat)
    (cameraSet camera : Optional GoString) :
    writeFocusedCar [] connectionId carIndex cameraSet camera =
      ⟨none, [50] ++ leBytes 4 (toUint32 connectionId)
        ++ (match carIndex with
            | some carId => 1 :: leBytes 2 carId
            | none => [0])
        ++ (match cameraSet, camera with
            | some cs, some cam => 1 :: (leBytes 2 cs.length ++ cs ++ (leBytes 2 cam.length ++ cam))
            | _, _ => [0])⟩ := by
  cases carIndex <;> cases cameraSet <;> cases camera <;>
    simp [writeFocusedCar, writeNumberByte, writeNumberInt32, writeNumberBool, writeNumberUint16,
      writeString_eq, Optional.Present, Optional.If, Optional.Get,
      OutboundMessageChangeFocus]

/-- C7: `writeFocusedCar` on an empty buffer returns no error and writes
byte 50, the connection id as 4 little-endian bytes, the car presence flag,
the car index as 2 little-endian bytes only when present, then the combined
flag, which is 1 exactly when both camera set and camera are present and is
then followed by the two length-prefixed strings.  With only a car index the
output is the 9 bytes tag, id, 1, index, 0; with exactly one of camera set
and camera present the output ends with the combined flag 0 and holds no
string. -/
theorem writeFocusedCar_layout (connectionId : Int) :
    (∀ (carIndex : Optional Nat) (cameraSet camera : Optional GoString),
      writeFocusedCar [] connectionId carIndex cameraSet camera =
        ⟨none, [50] ++ leBytes 4 (toUint32 connectionId)
          ++ (match carIndex with
              | some carId => 1 :: leBytes 2 carId
              | none => [0])
          ++ (match cameraSet, camera with
              | some cs, some cam =>
                1 :: (leBytes 2 cs.length ++ cs ++ (leBytes 2 cam.length ++ cam))
              | _, _ => [0])⟩) ∧
    (∀ carId : Nat,
      writeFocusedCar [] connectionId (some carId) none none =
        ⟨none, [50] ++ leBytes 4 (toUint32 connectionId) ++ [1] ++ leBytes 2 carId ++ [0]⟩ ∧
      (writeFocusedCar [] connectionId (some carId) none none).buf.length = 9) ∧
    (∀ (carIndex : Optional Nat) (s : GoString),
      writeFocusedCar [] connectionId carIndex (some s) none =
        writeFocusedCar [] connectionId carIndex none none ∧
      writeFocusedCar [] connectionId carIndex none (some s) =
        writeFocusedCar [] connectionId carIndex none none) := by
  refine ⟨fun carIndex cameraSet camera => writeFocusedCar_eq _ _ _ _, ?_, ?_⟩
  · intro carId
    rw [writeFocusedCar_eq]
    refine ⟨by simp, ?_⟩
    simp only [List.length_append, List.length_cons, List.length_nil, leBytes_length]
  · intro carIndex s
    exact ⟨by rw [writeFocusedCar_eq, writeFocusedCar_eq],
      by rw [writeFocusedCar_eq, writeFocusedCar_eq]⟩

theorem writeRegistration_eq (displayName connectionPassword : GoString)
    (msRealtimeUpdateInterval : Int) (commandPassword : GoString) :
    writeRegistration [] displayName connectionPassword msRealtimeUpdateInterval
        commandPassword =
      ⟨none, [1, 4] ++ (leBytes 2 displayName.length ++ displayName)
        ++ (leBytes 2 connectionPassword.length ++ connectionPassword)
        ++ leBytes 4 (toUint32 msRealtimeUpdateInterval)
        ++ (leBytes 2 commandPassword.length ++ commandPassword)⟩ := by
  simp [writeRegistration, writeNumberByte, writeNumberInt32, writeString_eq,
    OutboundMessageRegisterCommandApplication, BroadcastingProtocolVersion]

/-- C8: for strings of at most 32767 bytes and an `int32` interval,
`writeRegistration` on an empty buffer returns no error and writes exactly
byte 1, byte 4, the length-prefixed display name, the length-prefixed
connection password, the interval as 4 little-endian bytes and the
length-prefixed command password; each 2-byte prefix is the length of its
string and the 4 bytes read back as the interval. -/
theorem writeRegistration_layout (displayName connectionPassword : GoString)
    (msRealtimeUpdateInterval : Int) (commandPassword : GoString)
    (hd : displayName.length ≤ 32767) (hc : connectionPassword.length ≤ 32767)
    (hm : commandPassword.length ≤ 32767)
    (hlo : -2147483648 ≤ msRealtimeUpdateInterval) (hhi : msRealtimeUpdateInterval < 2147483648) :
    writeRegistration [] displayName connectionPassword msRealtimeUpdateInterval
        commandPassword =
      ⟨none, [1, 4] ++ (leBytes 2 displayName.length ++ displayName)
        ++ (leBytes 2 connectionPassword.length ++ connectionPassword)
        ++ leBytes 4 (toUint32 msRealtimeUpdateInterval)
        ++ (leBytes 2 commandPassword.length ++ commandPassword)⟩ ∧
    toInt16 (leNat (leBytes 2 displayName.length)) = displayName.length ∧
    toInt16 (leNat (leBytes 2 connectionPassword.length)) = connectionPassword.length ∧
    toInt16 (leNat (leBytes 2 commandPassword.length)) = commandPassword.length ∧
    toInt32 (leNat (leBytes 4 (toUint32 msRealtimeUpdateInterval))) = msRealtimeUpdateInterval := by
  refine ⟨writeRegistration_eq _ _ _ _, ?_, ?_, ?_, ?_⟩
  · rw [leNat_leBytes_two, toInt16_mod, toInt16_of_lt (by omega)]
  · rw [leNat_leBytes_two, toInt16_mod, toInt16_of_lt (by omega)]
  · rw [leNat_leBytes_two, toInt16_mod, toInt16_of_lt (by omega)]
  · rw [leNat_leBytes_four, toInt32_mod, toInt32_toUint32 hlo hhi]

/-- Witness for C8: display name `"n"`, connection password `"a"`, interval
250 ms, command password `"b"`. -/
theorem writeRegistration_layout_witness :
    writeRegistration [] [110] [97] 250 [98] =
      ⟨none, [1, 4, 1, 0, 110, 1, 0, 97, 250, 0, 0, 0, 1, 0, 98]⟩ :=
  (writeRegistration_layout [110] [97] 250 [98] (by decide) (by decide) (by decide)
    (by decide) (by decide)).1

/-! ## Registration sent by `Connect` -/

/-- C9: for the client built by `NewAccUDPClient` with connection password
`"a"` and command password `"b"`, the registration request that `Connect`
encodes carries `"a"` in its command-password field, so it differs from the
registration of the two given passwords. -/
theorem connectRegistration_commandPassword :
    (NewAccUDPClient [] [110] [97] 250 [98] 1000).connectRegistration =
      ⟨none, [1, 4, 1, 0, 110, 1, 0, 97, 250, 0, 0, 0, 1, 0, 97]⟩ ∧
    (NewAccUDPClient [] [110] [97] 250 [98] 1000).commandPassword ≠ [98] ∧
    (NewAccUDPClient [] [110] [97] 250 [98] 1000).connectRegistration ≠
      writeRegistration [] [110] [97] 250 [98] := by
  decide

/-! ## Requests that carry only the connection id -/

/-- C10: for every `int32` connection id, `writeDisconnect`,
`writeEntryListRequest` and `writeTrackDataRequest` on an empty buffer return
no error and write exactly 5 bytes: the tag (9, 10, 11) followed by the 4
little-endian two's-complement bytes of the connection id. -/
theorem writeConnectionIdRequests_layout (connectionId : Int)
    (hlo : -2147483648 ≤ connectionId) (hhi : connectionId < 2147483648) :
    writeDisconnect [] connectionId = ⟨none, 9 :: leBytes 4 (toUint32 connectionId)⟩ ∧
    writeEntryListRequest [] connectionId = ⟨none, 10 :: leBytes 4 (toUint32 connectionId)⟩ ∧
    writeTrackDataRequest [] connectionId = ⟨none, 11 :: leBytes 4 (toUint32 connectionId)⟩ ∧
    (writeDisconnect [] connectionId).buf.length = 5 ∧
    (writeEntryListRequest [] connectionId).buf.length = 5 ∧
    (writeTrackDataRequest [] connectionId).buf.length = 5 ∧
    readNumberInt32 (leBytes 4 (toUint32 connectionId)) = ⟨connectionId, none, []⟩ := by
  have h1 : writeDisconnect [] connectionId = ⟨none, 9 :: leBytes 4 (toUint32 connectionId)⟩ := by
    simp [writeDisconnect, writeNumberByte, writeNumberInt32,
      OutboundMessageUnregisterCommandApplication]
  have h2 : writeEntryListRequest [] connectionId
      = ⟨none, 10 :: leBytes 4 (toUint32 connectionId)⟩ := by
    simp [writeEntryListRequest, writeNumberByte, writeNumberInt32,
      OutboundMessageRequestEntryList]
  have h3 : writeTrackDataRequest [] connectionId
      = ⟨none, 11 :: leBytes 4 (toUint32 connectionId)⟩ := by
    simp [writeTrackDataRequest, writeNumberByte, writeNumberInt32,
      OutboundMessageRequestTrackData]
  refine ⟨h1, h2, h3, ?_, ?_, ?_, ?_⟩
  · rw [h1]; simp only [List.length_cons, leBytes_length]
  · rw [h2]; simp only [List.length_cons, leBytes_length]
  · rw [h3]; simp only [List.length_cons, leBytes_length]
  · have hlen : 4 ≤ (leBytes 4 (toUint32 connectionId)).length := by rw [leBytes_length]
    rw [readNumberInt32_of_le hlen]
    have ht : List.take 4 (leBytes 4 (toUint32 connectionId)) = leBytes 4 (toUint32 connectionId) :=
      List.take_of_length_le (by rw [leBytes_length])
    have hdr : List.drop 4 (leBytes 4 (toUint32 connectionId)) = [] :=
      List.drop_of_length_le (by rw [leBytes_length])
    rw [ht, hdr, leNat_leBytes_four, toInt32_mod, toInt32_toUint32 hlo hhi]

/-- Witness for C10: connection id `-2`, whose bytes are `FE FF FF FF`. -/
theorem writeConnectionIdRequests_layout_witness :
    writeDisconnect [] (-2) = ⟨none, [9, 254, 255, 255, 255]⟩ ∧
    writeEntryListRequest [] (-2) = ⟨none, [10, 254, 255, 255, 255]⟩ ∧
    writeTrackDataRequest [] (-2) = ⟨none, [11, 254, 255, 255, 255]⟩ :=
  ⟨(writeConnectionIdRequests_layout (-2) (by decide) (by decide)).1,
   (writeConnectionIdRequests_layout (-2) (by decide) (by decide)).2.1,
   (writeConnectionIdRequests_layout (-2) (by decide) (by decide)).2.2.1⟩

/-! ## The receive loop on a full buffer -/

/-- C12: one step of the receive loop on a datagram that fills the buffer
(`ReadBufferSize` bytes), whatever its bytes, returns the client unchanged:
no event and no error is published and no field changes; the loop then goes
on with the next iteration. -/
theorem listenStep_full_buffer (c : AccUDPClient) (i : ListenInput) (rest : List ListenInput)
    (hd : i.deadlineErr = none) (hr : i.readErr = none)
    (hn : i.received.length = ReadBufferSize) :
    c.listenStep i = .value c ∧
    (c.listening = true → c.listen (i :: rest) = c.listen rest) := by
  have hstep : c.listenStep i = .value c := by
    obtain ⟨now, deadlineErr, readErr, received⟩ := i
    simp only at hd hr hn
    subst hd hr
    unfold AccUDPClient.listenStep
    exact if_pos hn
  refine ⟨hstep, ?_⟩
  intro hl
  rw [AccUDPClient.listen, if_pos hl, hstep]

/-- Witness for C12: a full datagram whose first bytes are a valid entry
list. -/
theorem listenStep_full_buffer_witness :
    ({ listening := true } : AccUDPClient).listenStep { received := fullDatagram }
      = .value { listening := true } ∧
    (({ listening := true } : AccUDPClient).listening = true →
      ({ listening := true } : AccUDPClient).listen [{ received := fullDatagram }]
        = ({ listening := true } : AccUDPClient).listen []) :=
  listenStep_full_buffer { listening := true } { received := fullDatagram } [] rfl rfl
    (by rw [fullDatagram, List.length_cons, List.length_replicate]; rfl)

/-! ## Track data that ends early -/

/-- C13: track data that announces one HUD page and ends right after the
count decodes without error, with the empty string as its HUD page. -/
theorem readTrackDataResponse_missing_hud_name :
    readTrackDataResponse trackDataNoHudName =
      .done ⟨(1, { Id := 5, Meters := 10, HudPages := [[]] }), none, []⟩ := by
  decide

/-! ## `GetCurrentDriver` -/

/-- C14: with one driver and current driver id 0 (a valid index)
`GetCurrentDriver` returns the empty `DriverInfo`, not the driver; with no
driver and current driver id 1 it indexes outside the list and panics. -/
theorem GetCurrentDriver_inverted :
    ({ CurrentDriverId := 0, Drivers := [driverABC] } : CarInfo).GetCurrentDriver = .value {} ∧
    ({ CurrentDriverId := 0, Drivers := [driverABC] } : CarInfo).GetCurrentDriver
      ≠ .value driverABC ∧
    ({ CurrentDriverId := 1, Drivers := [] } : CarInfo).GetCurrentDriver = .panicked := by
  decide

/-! ## The HUD page request -/

/-- C15: for an `int32` connection id and a page name of at most 32767
bytes, `writeRequestHudPage` on an empty buffer returns no error and writes
byte 51 (the value of `OutboundMessageInstantReplayRequest`, while
`OutboundMessageChangeHudPage` is 49), the 4 little-endian bytes of the
connection id and the length-prefixed page name. -/
theorem writeRequestHudPage_layout (connectionId : Int) (hudPage : GoString)
    (hlo : -2147483648 ≤ connectionId) (hhi : connectionId < 2147483648)
    (hp : hudPage.length ≤ 32767) :
    writeRequestHudPage [] connectionId hudPage =
      ⟨none, [51] ++ leBytes 4 (toUint32 connectionId)
        ++ (leBytes 2 hudPage.length ++ hudPage)⟩ ∧
    OutboundMessageInstantReplayRequest = 51 ∧
    OutboundMessageChangeHudPage = 49 ∧
    toInt32 (leNat (leBytes 4 (toUint32 connectionId))) = connectionId ∧
    toInt16 (leNat (leBytes 2 hudPage.length)) = hudPage.length := by
  refine ⟨?_, rfl, rfl, ?_, ?_⟩
  · simp [writeRequestHudPage, writeNumberByte, writeNumberInt32, writeString_eq,
      OutboundMessageInstantReplayRequest]
  · rw [leNat_leBytes_four, toInt32_mod, toInt32_toUint32 hlo hhi]
  · rw [leNat_leBytes_two, toInt16_mod, toInt16_of_lt (by omega)]

/-- Witness for C15: connection id 7 and the page `"ab"`. -/
theorem writeRequestHudPage_layout_witness :
    writeRequestHudPage [] 7 [97, 98] = ⟨none, [51, 7, 0, 0, 0, 2, 0, 97, 98]⟩ :=
  (writeRequestHudPage_layout 7 [97, 98] (by decide) (by decide) (by decide)).1

/-! ## The handshake and the connection id -/

/-- C19: one step of the receive loop on a registration result carrying the
error message `"no"` reports the error and leaves the client with the
connection id of the refused result (9 instead of 7); on a registration
result cut inside the connection id it reports the error and leaves the
connection id 0. -/
theorem listenStep_refused_registration_sets_id :
    ({ connectionId := 7 } : AccUDPClient).listenStep { received := registrationRefused }
      = .value { connectionId := 9, ErrChannel := [.NewOfBytes [110, 111]] } ∧
    ({ connectionId := 7 } : AccUDPClient).listenStep { received := registrationCut }
      = .value { connectionId := 0, ErrChannel := [.ErrUnexpectedEOF] } := by
  decide

/-! ## The read deadline -/

/-- C20: the client built by `NewAccUDPClient` with a timeout of 1000 ms has
`timeOutDuration` 0, not 1000 ms (1000000000 ns): the deadline it arms at
clock reading 5000000000 is 5000000000 itself. -/
theorem NewAccUDPClient_timeOutDuration_zero :
    (NewAccUDPClient [] [110] [97] 250 [98] 1000).timeoutMs = 1000 ∧
    (NewAccUDPClient [] [110] [97] 250 [98] 1000).timeOutDuration = 0 ∧
    (NewAccUDPClient [] [110] [97] 250 [98] 1000).timeOutDuration ≠ 1000 * 1000000 ∧
    (NewAccUDPClient [] [110] [97] 250 [98] 1000).readDeadline 5000000000 = 5000000000 := by
  decide

/-! ## Numeric round trip -/

theorem toInt16_toUint16 {x : Int} (hlo : -32768 ≤ x) (hhi : x < 32768) :
    toInt16 (toUint16 x) = x := by
  unfold toInt16 toUint16
  split <;> omega

theorem readNumber_leBytes_two (v : Nat) :
    readFull 2 (leBytes 2 v) = ⟨leBytes 2 v, none, []⟩ := by
  have hlen : 2 ≤ (leBytes 2 v).length := by rw [leBytes_length]
  rw [readFull_of_le hlen, List.take_of_length_le (by rw [leBytes_length]),
    List.drop_of_length_le (by rw [leBytes_length])]

theorem readNumber_leBytes_four (v : Nat) :
    readFull 4 (leBytes 4 v) = ⟨leBytes 4 v, none, []⟩ := by
  have hlen : 4 ≤ (leBytes 4 v).length := by rw [leBytes_length]
  rw [readFull_of_le hlen, List.take_of_length_le (by rw [leBytes_length]),
    List.drop_of_length_le (by rw [leBytes_length])]

theorem readNumberInt8_writeNumberInt8 {x : Int} (hlo : -128 ≤ x) (hhi : x < 128) :
    readNumberInt8 (writeNumberInt8 [] x).buf = ⟨x, none, []⟩ := by
  have hv : ((Fin.ofNat ((x % 256).toNat % 256) : Byte) : Nat) = (x % 256).toNat := by
    simp only [Fin.ofNat]
    omega
  have hb : (writeNumberInt8 [] x).buf = [Fin.ofNat ((x % 256).toNat % 256)] := rfl
  rw [hb]
  simp only [readNumberInt8, readFull, List.length_singleton, le_refl, if_true, List.take_succ_cons,
    List.take_zero, List.drop_succ_cons, List.drop_zero, List.headD_cons, hv]
  congr 1
  split <;> omega

/-- C16: for every `byte`, `int8`, `int16`, `uint16`, `int32` and `bool`
value, `writeNumber` on an empty buffer returns no error and writes the
little-endian bytes of the value, as many as the type is wide (a `bool` as
the byte 1 or 0), and `readNumber` of the same type on these bytes returns
the value with no error and leaves the buffer empty. -/
theorem writeNumber_readNumber_roundtrip :
    (∀ x : Byte,
      writeNumberByte [] x = ⟨none, [x]⟩ ∧
      readNumberByte (writeNumberByte [] x).buf = ⟨x, none, []⟩) ∧
    (∀ x : Int, -128 ≤ x → x < 128 →
      writeNumberInt8 [] x = ⟨none, leBytes 1 (x % 256).toNat⟩ ∧
      (writeNumberInt8 [] x).buf.length = 1 ∧
      readNumberInt8 (writeNumberInt8 [] x).buf = ⟨x, none, []⟩) ∧
    (∀ x : Int, -32768 ≤ x → x < 32768 →
      writeNumberInt16 [] x = ⟨none, leBytes 2 (toUint16 x)⟩ ∧
      (writeNumberInt16 [] x).buf.length = 2 ∧
      readNumberInt16 (writeNumberInt16 [] x).buf = ⟨x, none, []⟩) ∧
    (∀ x : Nat, x < 65536 →
      writeNumberUint16 [] x = ⟨none, leBytes 2 x⟩ ∧
      (writeNumberUint16 [] x).buf.length = 2 ∧
      readNumberUint16 (writeNumberUint16 [] x).buf = ⟨x, none, []⟩) ∧
    (∀ x : Int, -2147483648 ≤ x → x < 2147483648 →
      writeNumberInt32 [] x = ⟨none, leBytes 4 (toUint32 x)⟩ ∧
      (writeNumberInt32 [] x).buf.length = 4 ∧
      readNumberInt32 (writeNumberInt32 [] x).buf = ⟨x, none, []⟩) ∧
    (∀ x : Bool,
      writeNumberBool [] x = ⟨none, [if x then 1 else 0]⟩ ∧
      readNumberBool (writeNumberBool [] x).buf = ⟨x, none, []⟩) := by
  refine ⟨?_, ?_, ?_, ?_, ?_, ?_⟩
  · intro x
    exact ⟨rfl, readNumberByte_cons x []⟩
  · intro x hlo hhi
    exact ⟨rfl, rfl, readNumberInt8_writeNumberInt8 hlo hhi⟩
  · intro x hlo hhi
    refine ⟨rfl, ?_, ?_⟩
    · simp only [writeNumberInt16, List.nil_append, leBytes_length]
    · simp only [writeNumberInt16, List.nil_append, readNumberInt16, readNumber_leBytes_two]
      rw [leNat_leBytes_two, toInt16_mod, toInt16_toUint16 hlo hhi]
  · intro x hx
    refine ⟨rfl, ?_, ?_⟩
    · simp only [writeNumberUint16, List.nil_append, leBytes_length]
    · simp only [writeNumberUint16, List.nil_append, readNumberUint16, readNumber_leBytes_two]
      rw [leNat_leBytes_two, Nat.mod_eq_of_lt hx]
  · intro x hlo hhi
    refine ⟨rfl, ?_, ?_⟩
    · simp only [writeNumberInt32, List.nil_append, leBytes_length]
    · simp only [writeNumberInt32, List.nil_append, readNumberInt32, readNumber_leBytes_four]
      rw [leNat_leBytes_four, toInt32_mod, toInt32_toUint32 hlo hhi]
  · intro x
    refine ⟨rfl, ?_⟩
    cases x <;> rfl

/-- Witness for C16: the values 200, -3, -300, 60000, -70000 and `true`. -/
theorem writeNumber_readNumber_roundtrip_witness :
    readNumberByte (writeNumberByte [] 200).buf = ⟨200, none, []⟩ ∧
    readNumberInt8 (writeNumberInt8 [] (-3)).buf = ⟨-3, none, []⟩ ∧
    readNumberInt16 (writeNumberInt16 [] (-300)).buf = ⟨-300, none, []⟩ ∧
    readNumberUint16 (writeNumberUint16 [] 60000).buf = ⟨60000, none, []⟩ ∧
    readNumberInt32 (writeNumberInt32 [] (-70000)).buf = ⟨-70000, none, []⟩ ∧
    readNumberBool (writeNumberBool [] true).buf = ⟨true, none, []⟩ :=
  ⟨(writeNumber_readNumber_roundtrip.1 200).2,
   (writeNumber_readNumber_roundtrip.2.1 (-3) (by decide) (by decide)).2.2,
   (writeNumber_readNumber_roundtrip.2.2.1 (-300) (by decide) (by decide)).2.2,
   (writeNumber_readNumber_roundtrip.2.2.2.1 60000 (by decide)).2.2,
   (writeNumber_readNumber_roundtrip.2.2.2.2.1 (-70000) (by decide) (by decide)).2.2,
   (writeNumber_readNumber_roundtrip.2.2.2.2.2 true).2⟩

/-! ## Lap type and length of a lap record -/

theorem readLap_ok (b : Buffer) (h : (readLap b).err = none) :
    13 + 4 * (b.getD 8 0).val ≤ b.length ∧
    (readLap b).buf = b.drop (13 + 4 * (b.getD 8 0).val) ∧
    (readLap b).val.LapType =
      if b.getD (11 + 4 * (b.getD 8 0).val) 0 ≠ 0 then LapTypeOutlap
      else if b.getD (12 + 4 * (b.getD 8 0).val) 0 ≠ 0 then LapTypeInlap
      else LapTypeRegular := by
  rcases b with _ | ⟨x0, _ | ⟨x1, _ | ⟨x2, _ | ⟨x3, _ | ⟨x4, _ | ⟨x5, _ | ⟨x6, _ | ⟨x7, _ | ⟨x8, rest⟩⟩⟩⟩⟩⟩⟩⟩⟩
  iterate 9 simp [readLap, readNumberInt32, readNumberUint16, readNumberByte, readFull] at h
  simp only [readLap, readNumberInt32_cons, readNumberUint16_cons, readNumberByte_cons] at h ⊢
  cases h5 : (readLapSplits x8.val rest ⟨toInt32 (leNat [x0, x1, x2, x3]), [], leNat [x4, x5],
      leNat [x6, x7], false, false, 0⟩).err with
  | some e => simp [h5] at h
  | none =>
  obtain ⟨hl, hb, hv⟩ := readLapSplits_ok _ _ _ h5
  simp only [h5, hb, hv] at h ⊢
  rcases hd : List.drop (4 * x8.val) rest with _ | ⟨f0, _ | ⟨f1, _ | ⟨f2, _ | ⟨f3, tail⟩⟩⟩⟩
  iterate 4 simp [hd, readNumberBool, readFull] at h
  simp only [hd, readNumberBool_cons]
  simp only [List.getD_cons_succ, List.getD_cons_zero]
  have hlen : (List.drop (4 * x8.val) rest).length = tail.length + 4 := by rw [hd]; rfl
  rw [List.length_drop] at hlen
  have e11 : 11 + 4 * x8.val = (4 * x8.val + 2) + 9 := by omega
  have e12 : 12 + 4 * x8.val = (4 * x8.val + 3) + 9 := by omega
  have e13 : 13 + 4 * x8.val = (4 * x8.val + 4) + 9 := by omega
  have hf2 : rest.getD (4 * x8.val + 2) 0 = f2 := by
    rw [List.getD_eq_getElem?_getD, ← List.getElem?_drop, hd]; simp
  have hf3 : rest.getD (4 * x8.val + 3) 0 = f3 := by
    rw [List.getD_eq_getElem?_getD, ← List.getElem?_drop, hd]; simp
  have htail : List.drop (4 * x8.val + 4) rest = tail := by
    rw [← List.drop_drop, hd]; rfl
  clear h h5 hb hv
  simp only [e11, e12, e13, List.getD_cons_succ, List.drop_succ_cons, List.length_cons, hf2,
    hf3, htail]
  refine ⟨by omega, trivial, ?_⟩
  by_cases h2 : f2 = 0
  · by_cases h3 : f3 = 0
    · simp [h2, h3]
    · simp [h2, h3]
  · simp [h2]

/-- C17: whenever `readLap` succeeds, with `k` the split count byte, the lap
type depends only on the out-lap byte (offset `11 + 4 * k`) and the in-lap
byte (offset `12 + 4 * k`): `Outlap` when the out-lap byte is non-zero,
`Inlap` when only the in-lap byte is non-zero, `Regular` when both are zero;
it is never `Error`. -/
theorem readLap_lapType (b : Buffer) (h : (readLap b).err = none) :
    (b.getD (11 + 4 * (b.getD 8 0).val) 0 ≠ 0 → (readLap b).val.LapType = LapTypeOutlap) ∧
    (b.getD (11 + 4 * (b.getD 8 0).val) 0 = 0 → b.getD (12 + 4 * (b.getD 8 0).val) 0 ≠ 0 →
      (readLap b).val.LapType = LapTypeInlap) ∧
    (b.getD (11 + 4 * (b.getD 8 0).val) 0 = 0 → b.getD (12 + 4 * (b.getD 8 0).val) 0 = 0 →
      (readLap b).val.LapType = LapTypeRegular) ∧
    (readLap b).val.LapType ≠ LapTypeERROR := by
  obtain ⟨_, _, ht⟩ := readLap_ok b h
  rw [ht]
  refine ⟨?_, ?_, ?_, ?_⟩
  · intro h2; rw [if_pos h2]
  · intro h2 h3; rw [if_neg (by simpa using h2), if_pos h3]
  · intro h2 h3; rw [if_neg (by simpa using h2), if_neg (by simpa using h3)]
  · split
    · decide
    · split <;> decide

/-- Witness for C17: in the one-split lap only the in-lap byte is set. -/
theorem readLap_lapType_witness :
    (readLap lapBuffer1).err = none ∧
    (readLap lapBuffer1).val.LapType = LapTypeInlap ∧
    (readLap lapBuffer1).val.LapType ≠ LapTypeERROR :=
  ⟨by decide,
   (readLap_lapType lapBuffer1 (by decide)).2.1 (by decide) (by decide),
   (readLap_lapType lapBuffer1 (by decide)).2.2.2⟩

/-! ## Errors of the decoders -/

theorem NotUnknown_none : NotUnknown none := by
  intro err h
  cases h

theorem NotUnknown_EOF : NotUnknown (some .EOF) := by
  intro err h
  injection h with h
  subst h
  decide

theorem NotUnknown_ErrUnexpectedEOF : NotUnknown (some .ErrUnexpectedEOF) := by
  intro err h
  injection h with h
  subst h
  decide

theorem NotUnknown_mis : NotUnknown (some (.New "mis")) := by
  intro err h
  injection h with h
  subst h
  decide

theorem readFull_notUnknown (n : Nat) (b : Buffer) : NotUnknown (readFull n b).err := by
  unfold readFull
  split
  · exact NotUnknown_none
  · split
    · exact NotUnknown_EOF
    · exact NotUnknown_ErrUnexpectedEOF

theorem readNumberByte_notUnknown (b : Buffer) : NotUnknown (readNumberByte b).err := by
  have h := readFull_notUnknown 1 b
  unfold readNumberByte
  generalize readFull 1 b = r at h ⊢
  obtain ⟨v, e, b1⟩ := r
  cases e with
  | some e => exact h
  | none => exact NotUnknown_none

theorem readNumberBool_notUnknown (b : Buffer) : NotUnknown (readNumberBool b).err := by
  have h := readFull_notUnknown 1 b
  unfold readNumberBool
  generalize readFull 1 b = r at h ⊢
  obtain ⟨v, e, b1⟩ := r
  cases e with
  | some e => exact h
  | none => exact NotUnknown_none

theorem readNumberInt8_notUnknown (b : Buffer) : NotUnknown (readNumberInt8 b).err := by
  have h := readFull_notUnknown 1 b
  unfold readNumberInt8
  generalize readFull 1 b = r at h ⊢
  obtain ⟨v, e, b1⟩ := r
  cases e with
  | some e => exact h
  | none => exact NotUnknown_none

theorem readNumberUint16_notUnknown (b : Buffer) : NotUnknown (readNumberUint16 b).err := by
  have h := readFull_notUnknown 2 b
  unfold readNumberUint16
  generalize readFull 2 b = r at h ⊢
  obtain ⟨v, e, b1⟩ := r
  cases e with
  | some e => exact h
  | none => exact NotUnknown_none

theorem readNumberInt32_notUnknown (b : Buffer) : NotUnknown (readNumberInt32 b).err := by
  have h := readFull_notUnknown 4 b
  unfold readNumberInt32
  generalize readFull 4 b = r at h ⊢
  obtain ⟨v, e, b1⟩ := r
  cases e with
  | some e => exact h
  | none => exact NotUnknown_none

theorem readNumberFloat32_notUnknown (b : Buffer) : NotUnknown (readNumberFloat32 b).err := by
  have h := readFull_notUnknown 4 b
  unfold readNumberFloat32
  generalize readFull 4 b = r at h ⊢
  obtain ⟨v, e, b1⟩ := r
  cases e with
  | some e => exact h
  | none => exact NotUnknown_none

theorem Buffer.Read_notUnknown (b : Buffer) (p : List Byte) : NotUnknown (b.Read p).err := by
  unfold Buffer.Read
  split
  · split
    · exact NotUnknown_none
    · exact NotUnknown_EOF
  · exact NotUnknown_none

theorem readString_notUnknown (b : Buffer) : RunNotUnknown (readString b) := by
  intro x hx
  unfold readString at hx
  simp only at hx
  split at hx
  · exact absurd hx (by simp)
  · injection hx with hx
    subst hx
    simp only
    split
    · exact NotUnknown_mis
    · exact Buffer.Read_notUnknown _ _

theorem readLapSplits_notUnknown (n : Nat) : ∀ (b : Buffer) (lap : LapInfo),
    NotUnknown (readLapSplits n b lap).err := by
  induction n with
  | zero => intro b lap; exact NotUnknown_none
  | succ n ih =>
    intro b lap
    unfold readLapSplits
    have h := readNumberInt32_notUnknown b
    generalize readNumberInt32 b = r at h
    obtain ⟨v, e, b1⟩ := r
    cases e with
    | some e => exact h
    | none => exact ih _ _

theorem RunNotUnknown_panicked {α : Type} : RunNotUnknown (Run.panicked : Run α) := by
  intro x hx
  cases hx

theorem RunNotUnknown_done {α : Type} {r : Res α} (h : NotUnknown r.err) :
    RunNotUnknown (Run.done r) := by
  intro x hx
  injection hx with hx
  subst hx
  exact h

theorem readLap_notUnknown (b0 : Buffer) : NotUnknown (readLap b0).err := by
  unfold readLap
  simp only
  have h := readNumberInt32_notUnknown b0
  generalize readNumberInt32 b0 = r at h ⊢
  obtain ⟨v1, e, b1⟩ := r
  cases e with
  | some e => exact h
  | none =>
  simp only
  clear h
  have h := readNumberUint16_notUnknown b1
  generalize readNumberUint16 b1 = r at h ⊢
  obtain ⟨v2, e, b2⟩ := r
  cases e with
  | some e => exact h
  | none =>
  simp only
  clear h
  have h := readNumberUint16_notUnknown b2
  generalize readNumberUint16 b2 = r at h ⊢
  obtain ⟨v3, e, b3⟩ := r
  cases e with
  | some e => exact h
  | none =>
  simp only
  clear h
  have h := readNumberByte_notUnknown b3
  generalize readNumberByte b3 = r at h ⊢
  obtain ⟨v4, e, b4⟩ := r
  cases e with
  | some e => exact h
  | none =>
  simp only
  clear h
  generalize hr : readLapSplits _ _ _ = r
  have h : NotUnknown r.err := hr ▸ readLapSplits_notUnknown _ _ _
  obtain ⟨v5, e, b5⟩ := r
  cases e with
  | some e => exact h
  | none =>
  simp only
  clear h hr
  have h := readNumberBool_notUnknown b5
  generalize readNumberBool b5 = r at h ⊢
  obtain ⟨v6, e, b6⟩ := r
  cases e with
  | some e => exact h
  | none =>
  simp only
  clear h
  have h := readNumberBool_notUnknown b6
  generalize readNumberBool b6 = r at h ⊢
  obtain ⟨v7, e, b7⟩ := r
  cases e with
  | some e => exact h
  | none =>
  simp only
  clear h
  have h := readNumberBool_notUnknown b7
  generalize readNumberBool b7 = r at h ⊢
  obtain ⟨v8, e, b8⟩ := r
  cases e with
  | some e => exact h
  | none =>
  simp only
  clear h
  have h := readNumberBool_notUnknown b8
  generalize readNumberBool b8 = r at h ⊢
  obtain ⟨v9, e, b9⟩ := r
  cases e with
  | some e => exact h
  | none =>
  simp only
  clear h
  exact NotUnknown_none

theorem readRealtimeCarUpdateResponse_notUnknown (b0 : Buffer) :
    NotUnknown (readRealtimeCarUpdateResponse b0).err := by
  unfold readRealtimeCarUpdateResponse
  simp only
  have h := readNumberUint16_notUnknown b0
  generalize readNumberUint16 b0 = r at h ⊢
  obtain ⟨v1, e, b1⟩ := r
  cases e with
  | some e => exact h
  | none =>
  simp only
  clear h
  have h := readNumberUint16_notUnknown b1
  generalize readNumberUint16 b1 = r at h ⊢
  obtain ⟨v2, e, b2⟩ := r
  cases e with
  | some e => exact h
  | none =>
  simp only
  clear h
  have h := readNumberByte_notUnknown b2
  generalize readNumberByte b2 = r at h ⊢
  obtain ⟨v3, e, b3⟩ := r
  cases e with
  | some e => exact h
  | none =>
  simp only
  clear h
  have h := readNumberByte_notUnknown b3
  generalize readNumberByte b3 = r at h ⊢
  obtain ⟨v4, e, b4⟩ := r
  cases e with
  | some e => exact h
  | none =>
  simp only
  clear h
  have h := readNumberFloat32_notUnknown b4
  generalize readNumberFloat32 b4 = r at h ⊢
  obtain ⟨v5, e, b5⟩ := r
  cases e with
  | some e => exact h
  | none =>
  simp only
  clear h
  have h := readNumberFloat32_notUnknown b5
  generalize readNumberFloat32 b5 = r at h ⊢
  obtain ⟨v6, e, b6⟩ := r
  cases e with
  | some e => exact h
  | none =>
  simp only
  clear h
  have h := readNumberFloat32_notUnknown b6
  generalize readNumberFloat32 b6 = r at h ⊢
  obtain ⟨v7, e, b7⟩ := r
  cases e with
  | some e => exact h
  | none =>
  simp only
  clear h
  have h := readNumberByte_notUnknown b7
  generalize readNumberByte b7 = r at h ⊢
  obtain ⟨v8, e, b8⟩ := r
  cases e with
  | some e => exact h
  | none =>
  simp only
  clear h
  have h := readNumberUint16_notUnknown b8
  generalize readNumberUint16 b8 = r at h ⊢
  obtain ⟨v9, e, b9⟩ := r
  cases e with
  | some e => exact h
  | none =>
  simp only
  clear h
  have h := readNumberUint16_notUnknown b9
  generalize readNumberUint16 b9 = r at h ⊢
  obtain ⟨v10, e, b10⟩ := r
  cases e with
  | some e => exact h
  | none =>
  simp only
  clear h
  have h := readNumberUint16_notUnknown b10
  generalize readNumberUint16 b10 = r at h ⊢
  obtain ⟨v11, e, b11⟩ := r
  cases e with
  | some e => exact h
  | none =>
  simp only
  clear h
  have h := readNumberUint16_notUnknown b11
  generalize readNumberUint16 b11 = r at h ⊢
  obtain ⟨v12, e, b12⟩ := r
  cases e with
  | some e => exact h
  | none =>
  simp only
  clear h
  have h := readNumberFloat32_notUnknown b12
  generalize readNumberFloat32 b12 = r at h ⊢
  obtain ⟨v13, e, b13⟩ := r
  cases e with
  | some e => exact h
  | none =>
  simp only
  clear h
  have h := readNumberUint16_notUnknown b13
  generalize readNumberUint16 b13 = r at h ⊢
  obtain ⟨v14, e, b14⟩ := r
  cases e with
  | some e => exact h
  | none =>
  simp only
  clear h
  have h := readNumberInt32_notUnknown b14
  generalize readNumberInt32 b14 = r at h ⊢
  obtain ⟨v15, e, b15⟩ := r
  cases e with
  | some e => exact h
  | none =>
  simp only
  clear h
  have h := readLap_notUnknown b15
  generalize readLap b15 = r at h ⊢
  obtain ⟨v16, e, b16⟩ := r
  cases e with
  | some e => exact h
  | none =>
  simp only
  clear h
  have h := readLap_notUnknown b16
  generalize readLap b16 = r at h ⊢
  obtain ⟨v17, e, b17⟩ := r
  cases e with
  | some e => exact h
  | none =>
  simp only
  clear h
  have h := readLap_notUnknown b17
  generalize readLap b17 = r at h ⊢
  obtain ⟨v18, e, b18⟩ := r
  cases e with
  | some e => exact h
  | none =>
  simp only
  clear h
  exact NotUnknown_none

theorem readEntries_notUnknown (n : Nat) : ∀ (i : Nat) (b0 : Buffer) (l : EntryList),
    NotUnknown (readEntries n i b0 l).err := by
  induction n with
  | zero => intro i b0 l; exact NotUnknown_none
  | succ n ih =>
    intro i b0 l
    unfold readEntries
    have h := readNumberUint16_notUnknown b0
    generalize readNumberUint16 b0 = r at h ⊢
    obtain ⟨v1, e, b1⟩ := r
    cases e with
    | some e => exact h
    | none => exact ih _ _ _

theorem readEntryListResponse_notUnknown (b0 : Buffer) :
    NotUnknown (readEntryListResponse b0).err := by
  unfold readEntryListResponse
  simp only
  have h := readNumberInt32_notUnknown b0
  generalize readNumberInt32 b0 = r at h ⊢
  obtain ⟨v1, e, b1⟩ := r
  cases e with
  | some e => exact h
  | none =>
  simp only
  clear h
  have h := readNumberUint16_notUnknown b1
  generalize readNumberUint16 b1 = r at h ⊢
  obtain ⟨v2, e, b2⟩ := r
  cases e with
  | some e => exact h
  | none =>
  simp only
  clear h
  exact readEntries_notUnknown _ _ _ _

theorem readConnectionResponse_err (b0 : Buffer) (x : Res (Int × Bool × Bool))
    (hx : readConnectionResponse b0 = .done x) :
    NotUnknown x.err ∨ ∃ msg : GoString, msg ≠ [] ∧ x.err = some (.NewOfBytes msg) := by
  have hdone : ∀ r : Res (Int × Bool × Bool), NotUnknown r.err → Run.done r = .done x →
      NotUnknown x.err ∨ ∃ msg : GoString, msg ≠ [] ∧ x.err = some (.NewOfBytes msg) := by
    intro r h hr
    injection hr with hr
    subst hr
    exact Or.inl h
  unfold readConnectionResponse at hx
  simp only at hx
  have h := readNumberInt32_notUnknown b0
  generalize readNumberInt32 b0 = r at h hx
  obtain ⟨v1, e, b1⟩ := r
  cases e with
  | some e => exact hdone _ h hx
  | none =>
  simp only at hx
  clear h
  have h := readNumberBool_notUnknown b1
  generalize readNumberBool b1 = r at h hx
  obtain ⟨v2, e, b2⟩ := r
  cases e with
  | some e => exact hdone _ h hx
  | none =>
  simp only at hx
  clear h
  have h := readNumberBool_notUnknown b2
  generalize readNumberBool b2 = r at h hx
  obtain ⟨v3, e, b3⟩ := r
  cases e with
  | some e => exact hdone _ h hx
  | none =>
  simp only at hx
  clear h
  have h := readString_notUnknown b3
  generalize readString b3 = r at h hx
  cases r with
  | panicked => cases hx
  | done r =>
  obtain ⟨v4, e, b4⟩ := r
  have h := h _ rfl
  cases e with
  | some e => exact hdone _ h hx
  | none =>
  simp only at hx
  clear h
  split at hx
  · rename_i hne
    injection hx with hx
    subst hx
    exact Or.inr ⟨v4, hne, rfl⟩
  · exact hdone _ NotUnknown_none hx

theorem readBroadcastingEvent_notUnknown (b0 : Buffer) :
    RunNotUnknown (readBroadcastingEvent b0) := by
  unfold readBroadcastingEvent
  simp only
  have h := readNumberByte_notUnknown b0
  generalize readNumberByte b0 = r at h ⊢
  obtain ⟨v1, e, b1⟩ := r
  cases e with
  | some e => exact RunNotUnknown_done h
  | none =>
  simp only
  clear h
  have h := readString_notUnknown b1
  generalize readString b1 = r at h ⊢
  cases r with
  | panicked => exact RunNotUnknown_panicked
  | done r =>
  obtain ⟨v2, e, b2⟩ := r
  have h := h _ rfl
  cases e with
  | some e => exact RunNotUnknown_done h
  | none =>
  simp only
  clear h
  have h := readNumberInt32_notUnknown b2
  generalize readNumberInt32 b2 = r at h ⊢
  obtain ⟨v3, e, b3⟩ := r
  cases e with
  | some e => exact RunNotUnknown_done h
  | none =>
  simp only
  clear h
  have h := readNumberInt32_notUnknown b3
  generalize readNumberInt32 b3 = r at h ⊢
  obtain ⟨v4, e, b4⟩ := r
  cases e with
  | some e => exact RunNotUnknown_done h
  | none =>
  simp only
  clear h
  exact RunNotUnknown_done NotUnknown_none

theorem readDrivers_notUnknown (n : Nat) : ∀ (i : Nat) (b0 : Buffer) (car : CarInfo),
    RunNotUnknown (readDrivers n i b0 car) := by
  induction n with
  | zero => intro i b0 car; exact RunNotUnknown_done NotUnknown_none
  | succ n ih =>
    intro i b0 car
    unfold readDrivers
    simp only
    have h := readString_notUnknown b0
    generalize readString b0 = r at h ⊢
    cases r with
    | panicked => exact RunNotUnknown_panicked
    | done r =>
    obtain ⟨v1, e, b1⟩ := r
    have h := h _ rfl
    cases e with
    | some e => exact RunNotUnknown_done h
    | none =>
    simp only
    clear h
    have h := readString_notUnknown b1
    generalize readString b1 = r at h ⊢
    cases r with
    | panicked => exact RunNotUnknown_panicked
    | done r =>
    obtain ⟨v2, e, b2⟩ := r
    have h := h _ rfl
    cases e with
    | some e => exact RunNotUnknown_done h
    | none =>
    simp only
    clear h
    have h := readString_notUnknown b2
    generalize readString b2 = r at h ⊢
    cases r with
    | panicked => exact RunNotUnknown_panicked
    | done r =>
    obtain ⟨v3, e, b3⟩ := r
    have h := h _ rfl
    cases e with
    | some e => exact RunNotUnknown_done h
    | none =>
    simp only
    clear h
    have h := readNumberByte_notUnknown b3
    generalize readNumberByte b3 = r at h ⊢
    obtain ⟨v4, e, b4⟩ := r
    cases e with
    | some e => exact RunNotUnknown_done h
    | none =>
    simp only
    clear h
    have h := readNumberByte_notUnknown b4
    generalize readNumberByte b4 = r at h ⊢
    obtain ⟨v5, e, b5⟩ := r
    cases e with
    | some e => exact RunNotUnknown_done h
    | none =>
    simp only
    clear h
    exact ih _ _ _

theorem readEntryListCarResponse_notUnknown (b0 : Buffer) :
    RunNotUnknown (readEntryListCarResponse b0) := by
  unfold readEntryListCarResponse
  simp only
  have h := readNumberUint16_notUnknown b0
  generalize readNumberUint16 b0 = r at h ⊢
  obtain ⟨v1, e, b1⟩ := r
  cases e with
  | some e => exact RunNotUnknown_done h
  | none =>
  simp only
  clear h
  have h := readNumberByte_notUnknown b1
  generalize readNumberByte b1 = r at h ⊢
  obtain ⟨v2, e, b2⟩ := r
  cases e with
  | some e => exact RunNotUnknown_done h
  | none =>
  simp only
  clear h
  have h := readString_notUnknown b2
  generalize readString b2 = r at h ⊢
  cases r with
  | panicked => exact RunNotUnknown_panicked
  | done r =>
  obtain ⟨v3, e, b3⟩ := r
  have h := h _ rfl
  cases e with
  | some e => exact RunNotUnknown_done h
  | none =>
  simp only
  clear h
  have h := readNumberInt32_notUnknown b3
  generalize readNumberInt32 b3 = r at h ⊢
  obtain ⟨v4, e, b4⟩ := r
  cases e with
  | some e => exact RunNotUnknown_done h
  | none =>
  simp only
  clear h
  have h := readNumberByte_notUnknown b4
  generalize readNumberByte b4 = r at h ⊢
  obtain ⟨v5, e, b5⟩ := r
  cases e with
  | some e => exact RunNotUnknown_done h
  | none =>
  simp only
  clear h
  have h := readNumberInt8_notUnknown b5
  generalize readNumberInt8 b5 = r at h ⊢
  obtain ⟨v6, e, b6⟩ := r
  cases e with
  | some e => exact RunNotUnknown_done h
  | none =>
  simp only
  clear h
  have h := readNumberByte_notUnknown b6
  generalize readNumberByte b6 = r at h ⊢
  obtain ⟨v7, e, b7⟩ := r
  cases e with
  | some e => exact RunNotUnknown_done h
  | none =>
  simp only
  clear h
  have h := readNumberByte_notUnknown b7
  generalize readNumberByte b7 = r at h ⊢
  obtain ⟨v8, e, b8⟩ := r
  cases e with
  | some e => exact RunNotUnknown_done h
  | none =>
  simp only
  clear h
  exact readDrivers_notUnknown _ _ _ _

theorem readCameras_notUnknown (n : Nat) : ∀ (b0 : Buffer) (name : GoString) (t : TrackData),
    RunNotUnknown (readCameras n b0 name t) := by
  induction n with
  | zero => intro b0 name t; exact RunNotUnknown_done NotUnknown_none
  | succ n ih =>
    intro b0 name t
    unfold readCameras
    simp only
    have h := readString_notUnknown b0
    generalize readString b0 = r at h ⊢
    cases r with
    | panicked => exact RunNotUnknown_panicked
    | done r =>
    obtain ⟨v1, e, b1⟩ := r
    have h := h _ rfl
    cases e with
    | some e => exact RunNotUnknown_done h
    | none =>
    simp only
    clear h
    exact ih _ _ _

theorem readCameraSets_notUnknown (n : Nat) : ∀ (b0 : Buffer) (t : TrackData),
    RunNotUnknown (readCameraSets n b0 t) := by
  induction n with
  | zero => intro b0 t; exact RunNotUnknown_done NotUnknown_none
  | succ n ih =>
    intro b0 t
    unfold readCameraSets
    simp only
    have h := readString_notUnknown b0
    generalize readString b0 = r at h ⊢
    cases r with
    | panicked => exact RunNotUnknown_panicked
    | done r =>
    obtain ⟨v1, e, b1⟩ := r
    have h := h _ rfl
    cases e with
    | some e => exact RunNotUnknown_done h
    | none =>
    simp only
    clear h
    have h := readNumberByte_notUnknown b1
    generalize readNumberByte b1 = r at h ⊢
    obtain ⟨v2, e, b2⟩ := r
    cases e with
    | some e => exact RunNotUnknown_done h
    | none =>
    simp only
    clear h
    generalize hr : readCameras _ _ _ _ = r
    have h : RunNotUnknown r := hr ▸ readCameras_notUnknown _ _ _ _
    cases r with
    | panicked => exact RunNotUnknown_panicked
    | done r =>
    obtain ⟨v3, e, b3⟩ := r
    have h := h _ rfl
    cases e with
    | some e => exact RunNotUnknown_done h
    | none => exact ih _ _

theorem readHudPages_notUnknown (n : Nat) : ∀ (b0 : Buffer) (err : Option GoError) (t : TrackData),
    NotUnknown err → RunNotUnknown (readHudPages n b0 err t) := by
  induction n with
  | zero => intro b0 err t herr; exact RunNotUnknown_done herr
  | succ n ih =>
    intro b0 err t _
    unfold readHudPages
    simp only
    have h := readString_notUnknown b0
    generalize readString b0 = r at h ⊢
    cases r with
    | panicked => exact RunNotUnknown_panicked
    | done r =>
    obtain ⟨v1, e, b1⟩ := r
    have h := h _ rfl
    cases e with
    | some e => exact RunNotUnknown_done h
    | none =>
    simp only
    clear h
    exact ih _ _ _ NotUnknown_none

theorem readTrackDataResponse_notUnknown (b0 : Buffer) :
    RunNotUnknown (readTrackDataResponse b0) := by
  unfold readTrackDataResponse
  simp only
  have h := readNumberInt32_notUnknown b0
  generalize readNumberInt32 b0 = r at h ⊢
  obtain ⟨v1, e, b1⟩ := r
  cases e with
  | some e => exact RunNotUnknown_done h
  | none =>
  simp only
  clear h
  have h := readString_notUnknown b1
  generalize readString b1 = r at h ⊢
  cases r with
  | panicked => exact RunNotUnknown_panicked
  | done r =>
  obtain ⟨v2, e, b2⟩ := r
  have h := h _ rfl
  cases e with
  | some e => exact RunNotUnknown_done h
  | none =>
  simp only
  clear h
  have h := readNumberByte_notUnknown b2
  generalize readNumberByte b2 = r at h ⊢
  obtain ⟨v3, e, b3⟩ := r
  cases e with
  | some e => exact RunNotUnknown_done h
  | none =>
  simp only
  clear h
  have h := readNumberInt32_notUnknown b3
  generalize readNumberInt32 b3 = r at h ⊢
  obtain ⟨v4, e, b4⟩ := r
  cases e with
  | some e => exact RunNotUnknown_done h
  | none =>
  simp only
  clear h
  have h := readNumberByte_notUnknown b4
  generalize readNumberByte b4 = r at h ⊢
  obtain ⟨v5, e, b5⟩ := r
  cases e with
  | some e => exact RunNotUnknown_done h
  | none =>
  simp only
  clear h
  generalize hr : readCameraSets _ _ _ = r
  have h : RunNotUnknown r := hr ▸ readCameraSets_notUnknown _ _ _
  cases r with
  | panicked => exact RunNotUnknown_panicked
  | done r =>
  obtain ⟨v6, e, b6⟩ := r
  have h := h _ rfl
  cases e with
  | some e => exact RunNotUnknown_done h
  | none =>
  simp only
  clear h hr
  have h := readNumberByte_notUnknown b6
  generalize readNumberByte b6 = rh at h ⊢
  obtain ⟨v7, e7, b7⟩ := rh
  simp only
  generalize hr : readHudPages _ _ _ _ = r
  have h2 : RunNotUnknown r := hr ▸ readHudPages_notUnknown _ _ _ _ h
  cases r with
  | panicked => exact RunNotUnknown_panicked
  | done r => exact RunNotUnknown_done (h2 _ rfl)

theorem readRealtimeUpdateResponse_notUnknown (now : Int) (b0 : Buffer) :
    RunNotUnknown (readRealtimeUpdateResponse now b0) := by
  unfold readRealtimeUpdateResponse
  simp only
  generalize readString _ = r1
  cases r1 with
  | panicked => exact RunNotUnknown_panicked
  | done r1 =>
  simp only
  generalize readString _ = r2
  cases r2 with
  | panicked => exact RunNotUnknown_panicked
  | done r2 =>
  simp only
  generalize readString _ = r3
  cases r3 with
  | panicked => exact RunNotUnknown_panicked
  | done r3 =>
  simp only
  apply RunNotUnknown_done
  simp only
  exact readLap_notUnknown _

/-! ## Dispatch on the type tag -/

theorem listenStep_tag_cases (tag : Byte) (h : 1 ≤ tag.val ∧ tag.val ≤ 7) :
    tag = 1 ∨ tag = 2 ∨ tag = 3 ∨ tag = 4 ∨ tag = 5 ∨ tag = 6 ∨ tag = 7 := by
  obtain ⟨t, ht⟩ := tag
  simp only [Fin.ext_iff, Fin.val_mk] at h ⊢
  have e1 : ((1 : Fin 256) : Nat) = 1 := rfl
  have e2 : ((2 : Fin 256) : Nat) = 2 := rfl
  have e3 : ((3 : Fin 256) : Nat) = 3 := rfl
  have e4 : ((4 : Fin 256) : Nat) = 4 := rfl
  have e5 : ((5 : Fin 256) : Nat) = 5 := rfl
  have e6 : ((6 : Fin 256) : Nat) = 6 := rfl
  have e7 : ((7 : Fin 256) : Nat) = 7 := rfl
  rw [e1, e2, e3, e4, e5, e6, e7]
  omega

theorem listenStep_tag_unknown (c : AccUDPClient) (now : Int) (tag : Byte) (rest : List Byte)
    (hlen : (tag :: rest).length < ReadBufferSize) (hn : ¬ (1 ≤ tag.val ∧ tag.val ≤ 7)) :
    c.listenStep ⟨now, none, none, tag :: rest⟩ =
      .value { c with ErrChannel := c.ErrChannel ++ [.New "unknown inboundMessagetype"] } := by
  have hne : ¬ (tag :: rest).length = ReadBufferSize := by omega
  have h1 : ¬ tag = InboundMessageRegistrationResult := by
    intro h; rw [h] at hn; exact hn (by decide)
  have h7 : ¬ tag = InboundMessageBroadcastingEvent := by
    intro h; rw [h] at hn; exact hn (by decide)
  have h5 : ¬ tag = InboundMessageTrackData := by
    intro h; rw [h] at hn; exact hn (by decide)
  have h6 : ¬ tag = InboundMessageEntryListCar := by
    intro h; rw [h] at hn; exact hn (by decide)
  have h4 : ¬ tag = InboundMessageEntryList := by
    intro h; rw [h] at hn; exact hn (by decide)
  have h2 : ¬ tag = InboundMessageRealtimeUpdate := by
    intro h; rw [h] at hn; exact hn (by decide)
  have h3 : ¬ tag = InboundMessageRealtimeCarUpdate := by
    intro h; rw [h] at hn; exact hn (by decide)
  unfold AccUDPClient.listenStep
  conv => zeta
  generalize readConnectionResponse _ = R1
  generalize readRealtimeUpdateResponse _ _ = R2
  generalize readRealtimeCarUpdateResponse _ = R3
  generalize readEntryListResponse _ = R4
  generalize readTrackDataResponse _ = R5
  generalize readEntryListCarResponse _ = R6
  generalize readBroadcastingEvent _ = R7
  simp only [readNumberByte_cons, if_neg hne, if_neg h1, if_neg h2, if_neg h3, if_neg h4,
    if_neg h5, if_neg h6, if_neg h7]

theorem listenStep_tag_1 (c : AccUDPClient) (now : Int) (rest : List Byte)
    (hlen : rest.length + 1 < ReadBufferSize) :
    c.listenStep ⟨now, none, none, (1 : Byte) :: rest⟩ =
      match readConnectionResponse rest with
      | .panicked => .panicked
      | .done r =>
        match r.err with
        | some err =>
          .value { c with connectionId := r.val.1, ErrChannel := c.ErrChannel ++ [err] }
        | none => .value { c with connectionId := r.val.1 } := by
  have hne : ¬ ((1 : Byte) :: rest).length = ReadBufferSize := by
    rw [List.length_cons]
    omega
  unfold AccUDPClient.listenStep
  conv => zeta
  have t1 : ((1 : Byte) = InboundMessageRegistrationResult) = True := eq_self _
  generalize hL : readConnectionResponse _ = L
  generalize readRealtimeUpdateResponse _ _ = R2
  generalize readRealtimeCarUpdateResponse _ = R3
  generalize readEntryListResponse _ = R4
  generalize readTrackDataResponse _ = R5
  generalize readEntryListCarResponse _ = R6
  generalize readBroadcastingEvent _ = R7
  simp only [readNumberByte_cons, if_neg hne, t1, if_true, if_false]
  have hb : (readNumberByte ((1 : Byte) :: rest)).buf = rest := by rw [readNumberByte_cons]
  have hL2 : readConnectionResponse (readNumberByte ((1 : Byte) :: rest)).buf = L := hL
  rw [hb] at hL2
  clear hL
  subst hL2
  generalize readConnectionResponse rest = R
  cases R with
  | panicked => rfl
  | done r =>
  obtain ⟨v, e, b⟩ := r
  cases e <;> rfl

theorem listenStep_tag_2 (c : AccUDPClient) (now : Int) (rest : List Byte)
    (hlen : rest.length + 1 < ReadBufferSize) :
    c.listenStep ⟨now, none, none, (2 : Byte) :: rest⟩ =
      dispatched c (readRealtimeUpdateResponse now rest)
        (fun event => { c with
          RealtimeUpdateEventChannel := c.RealtimeUpdateEventChannel ++ [event] }) := by
  have hne : ¬ ((2 : Byte) :: rest).length = ReadBufferSize := by
    rw [List.length_cons]
    omega
  unfold AccUDPClient.listenStep
  unfold dispatched
  conv => zeta
  have t1 : ((2 : Byte) = InboundMessageRegistrationResult) = False := eq_false (by decide)
  have t7 : ((2 : Byte) = InboundMessageBroadcastingEvent) = False := eq_false (by decide)
  have t5 : ((2 : Byte) = InboundMessageTrackData) = False := eq_false (by decide)
  have t6 : ((2 : Byte) = InboundMessageEntryListCar) = False := eq_false (by decide)
  have t4 : ((2 : Byte) = InboundMessageEntryList) = False := eq_false (by decide)
  have t2 : ((2 : Byte) = InboundMessageRealtimeUpdate) = True := eq_self _
  generalize readConnectionResponse _ = R1
  generalize hL : readRealtimeUpdateResponse _ _ = L
  generalize readRealtimeCarUpdateResponse _ = R3
  generalize readEntryListResponse _ = R4
  generalize readTrackDataResponse _ = R5
  generalize readEntryListCarResponse _ = R6
  generalize readBroadcastingEvent _ = R7
  simp only [readNumberByte_cons, if_neg hne, t1, t7, t5, t6, t4, t2, if_true, if_false]
  have hb : (readNumberByte ((2 : Byte) :: rest)).buf = rest := by rw [readNumberByte_cons]
  have hL2 : readRealtimeUpdateResponse now (readNumberByte ((2 : Byte) :: rest)).buf = L := hL
  rw [hb] at hL2
  clear hL
  subst hL2
  generalize readRealtimeUpdateResponse now rest = R
  cases R with
  | panicked => rfl
  | done r =>
  obtain ⟨v, e, b⟩ := r
  cases e <;> rfl

theorem listenStep_tag_3 (c : AccUDPClient) (now : Int) (rest : List Byte)
    (hlen : rest.length + 1 < ReadBufferSize) :
    c.listenStep ⟨now, none, none, (3 : Byte) :: rest⟩ =
      dispatched c (.done (readRealtimeCarUpdateResponse rest))
        (fun event => { c with
          RealtimeCarUpdateEventChannel := c.RealtimeCarUpdateEventChannel ++ [event] }) := by
  have hne : ¬ ((3 : Byte) :: rest).length = ReadBufferSize := by
    rw [List.length_cons]
    omega
  unfold AccUDPClient.listenStep
  unfold dispatched
  conv => zeta
  have t1 : ((3 : Byte) = InboundMessageRegistrationResult) = False := eq_false (by decide)
  have t7 : ((3 : Byte) = InboundMessageBroadcastingEvent) = False := eq_false (by decide)
  have t5 : ((3 : Byte) = InboundMessageTrackData) = False := eq_false (by decide)
  have t6 : ((3 : Byte) = InboundMessageEntryListCar) = False := eq_false (by decide)
  have t4 : ((3 : Byte) = InboundMessageEntryList) = False := eq_false (by decide)
  have t2 : ((3 : Byte) = InboundMessageRealtimeUpdate) = False := eq_false (by decide)
  have t3 : ((3 : Byte) = InboundMessageRealtimeCarUpdate) = True := eq_self _
  generalize readConnectionResponse _ = R1
  generalize readRealtimeUpdateResponse _ _ = R2
  generalize hL : readRealtimeCarUpdateResponse _ = L
  generalize readEntryListResponse _ = R4
  generalize readTrackDataResponse _ = R5
  generalize readEntryListCarResponse _ = R6
  generalize readBroadcastingEvent _ = R7
  simp only [readNumberByte_cons, if_neg hne, t1, t7, t5, t6, t4, t2, t3, if_true, if_false]
  have hb : (readNumberByte ((3 : Byte) :: rest)).buf = rest := by rw [readNumberByte_cons]
  have hL2 : readRealtimeCarUpdateResponse (readNumberByte ((3 : Byte) :: rest)).buf = L := hL
  rw [hb] at hL2
  clear hL
  subst hL2
  generalize readRealtimeCarUpdateResponse rest = r
  obtain ⟨v, e, b⟩ := r
  cases e <;> rfl

theorem listenStep_tag_4 (c : AccUDPClient) (now : Int) (rest : List Byte)
    (hlen : rest.length + 1 < ReadBufferSize) :
    c.listenStep ⟨now, none, none, (4 : Byte) :: rest⟩ =
      dispatched c (.done (readEntryListResponse rest))
        (fun r => { c with EntryListEventChannel := c.EntryListEventChannel ++ [r.2] }) := by
  have hne : ¬ ((4 : Byte) :: rest).length = ReadBufferSize := by
    rw [List.length_cons]
    omega
  unfold AccUDPClient.listenStep
  unfold dispatched
  conv => zeta
  have t1 : ((4 : Byte) = InboundMessageRegistrationResult) = False := eq_false (by decide)
  have t7 : ((4 : Byte) = InboundMessageBroadcastingEvent) = False := eq_false (by decide)
  have t5 : ((4 : Byte) = InboundMessageTrackData) = False := eq_false (by decide)
  have t6 : ((4 : Byte) = InboundMessageEntryListCar) = False := eq_false (by decide)
  have t4 : ((4 : Byte) = InboundMessageEntryList) = True := eq_self _
  generalize readConnectionResponse _ = R1
  generalize readRealtimeUpdateResponse _ _ = R2
  generalize readRealtimeCarUpdateResponse _ = R3
  generalize hL : readEntryListResponse _ = L
  generalize readTrackDataResponse _ = R5
  generalize readEntryListCarResponse _ = R6
  generalize readBroadcastingEvent _ = R7
  simp only [readNumberByte_cons, if_neg hne, t1, t7, t5, t6, t4, if_true, if_false]
  have hb : (readNumberByte ((4 : Byte) :: rest)).buf = rest := by rw [readNumberByte_cons]
  have hL2 : readEntryListResponse (readNumberByte ((4 : Byte) :: rest)).buf = L := hL
  rw [hb] at hL2
  clear hL
  subst hL2
  generalize readEntryListResponse rest = r
  obtain ⟨v, e, b⟩ := r
  cases e <;> rfl

theorem listenStep_tag_5 (c : AccUDPClient) (now : Int) (rest : List Byte)
    (hlen : rest.length + 1 < ReadBufferSize) :
    c.listenStep ⟨now, none, none, (5 : Byte) :: rest⟩ =
      dispatched c (readTrackDataResponse rest)
        (fun r => { c with TrackDataEventChannel := c.TrackDataEventChannel ++ [r.2] }) := by
  have hne : ¬ ((5 : Byte) :: rest).length = ReadBufferSize := by
    rw [List.length_cons]
    omega
  unfold AccUDPClient.listenStep
  unfold dispatched
  conv => zeta
  have t1 : ((5 : Byte) = InboundMessageRegistrationResult) = False := eq_false (by decide)
  have t7 : ((5 : Byte) = InboundMessageBroadcastingEvent) = False := eq_false (by decide)
  have t5 : ((5 : Byte) = InboundMessageTrackData) = True := eq_self _
  generalize readConnectionResponse _ = R1
  generalize readRealtimeUpdateResponse _ _ = R2
  generalize readRealtimeCarUpdateResponse _ = R3
  generalize readEntryListResponse _ = R4
  generalize hL : readTrackDataResponse _ = L
  generalize readEntryListCarResponse _ = R6
  generalize readBroadcastingEvent _ = R7
  simp only [readNumberByte_cons, if_neg hne, t1, t7, t5, if_true, if_false]
  have hb : (readNumberByte ((5 : Byte) :: rest)).buf = rest := by rw [readNumberByte_cons]
  have hL2 : readTrackDataResponse (readNumberByte ((5 : Byte) :: rest)).buf = L := hL
  rw [hb] at hL2
  clear hL
  subst hL2
  generalize readTrackDataResponse rest = R
  cases R with
  | panicked => rfl
  | done r =>
  obtain ⟨v, e, b⟩ := r
  cases e <;> rfl

theorem listenStep_tag_6 (c : AccUDPClient) (now : Int) (rest : List Byte)
    (hlen : rest.length + 1 < ReadBufferSize) :
    c.listenStep ⟨now, none, none, (6 : Byte) :: rest⟩ =
      dispatched c (readEntryListCarResponse rest)
        (fun event => { c with
          EntryListCarEventChannel := c.EntryListCarEventChannel ++ [event] }) := by
  have hne : ¬ ((6 : Byte) :: rest).length = ReadBufferSize := by
    rw [List.length_cons]
    omega
  unfold AccUDPClient.listenStep
  unfold dispatched
  conv => zeta
  have t1 : ((6 : Byte) = InboundMessageRegistrationResult) = False := eq_false (by decide)
  have t7 : ((6 : Byte) = InboundMessageBroadcastingEvent) = False := eq_false (by decide)
  have t5 : ((6 : Byte) = InboundMessageTrackData) = False := eq_false (by decide)
  have t6 : ((6 : Byte) = InboundMessageEntryListCar) = True := eq_self _
  generalize readConnectionResponse _ = R1
  generalize readRealtimeUpdateResponse _ _ = R2
  generalize readRealtimeCarUpdateResponse _ = R3
  generalize readEntryListResponse _ = R4
  generalize readTrackDataResponse _ = R5
  generalize hL : readEntryListCarResponse _ = L
  generalize readBroadcastingEvent _ = R7
  simp only [readNumberByte_cons, if_neg hne, t1, t7, t5, t6, if_true, if_false]
  have hb : (readNumberByte ((6 : Byte) :: rest)).buf = rest := by rw [readNumberByte_cons]
  have hL2 : readEntryListCarResponse (readNumberByte ((6 : Byte) :: rest)).buf = L := hL
  rw [hb] at hL2
  clear hL
  subst hL2
  generalize readEntryListCarResponse rest = R
  cases R with
  | panicked => rfl
  | done r =>
  obtain ⟨v, e, b⟩ := r
  cases e <;> rfl

theorem listenStep_tag_7 (c : AccUDPClient) (now : Int) (rest : List Byte)
    (hlen : rest.length + 1 < ReadBufferSize) :
    c.listenStep ⟨now, none, none, (7 : Byte) :: rest⟩ =
      dispatched c (readBroadcastingEvent rest)
        (fun event => { c with BroadCastEventChannel := c.BroadCastEventChannel ++ [event] }) := by
  have hne : ¬ ((7 : Byte) :: rest).length = ReadBufferSize := by
    rw [List.length_cons]
    omega
  unfold AccUDPClient.listenStep
  unfold dispatched
  conv => zeta
  have t1 : ((7 : Byte) = InboundMessageRegistrationResult) = False := eq_false (by decide)
  have t7 : ((7 : Byte) = InboundMessageBroadcastingEvent) = True := eq_self _
  generalize readConnectionResponse _ = R1
  generalize readRealtimeUpdateResponse _ _ = R2
  generalize readRealtimeCarUpdateResponse _ = R3
  generalize readEntryListResponse _ = R4
  generalize readTrackDataResponse _ = R5
  generalize readEntryListCarResponse _ = R6
  generalize hL : readBroadcastingEvent _ = L
  simp only [readNumberByte_cons, if_neg hne, t1, t7, if_true, if_false]
  have hb : (readNumberByte ((7 : Byte) :: rest)).buf = rest := by rw [readNumberByte_cons]
  have hL2 : readBroadcastingEvent (readNumberByte ((7 : Byte) :: rest)).buf = L := hL
  rw [hb] at hL2
  clear hL
  subst hL2
  generalize readBroadcastingEvent rest = R
  cases R with
  | panicked => rfl
  | done r =>
  obtain ⟨v, e, b⟩ := r
  cases e <;> rfl

theorem dispatched_ErrChannel {α : Type} (c : AccUDPClient) (R : Run α)
    (publish : α → AccUDPClient) (hp : ∀ v, (publish v).ErrChannel = c.ErrChannel)
    (h : RunNotUnknown R) (c' : AccUDPClient) (hc : dispatched c R publish = .value c') :
    c'.ErrChannel = c.ErrChannel ∨
      ∃ e : GoError, e.Error ≠ (GoError.New "unknown inboundMessagetype").Error ∧
        c'.ErrChannel = c.ErrChannel ++ [e] := by
  unfold dispatched at hc
  cases R with
  | panicked => cases hc
  | done r =>
  have h := h _ rfl
  obtain ⟨v, e, b⟩ := r
  cases e with
  | none =>
    simp only at hc
    injection hc with hc
    subst hc
    exact Or.inl (hp v)
  | some e =>
    simp only at hc
    injection hc with hc
    subst hc
    exact Or.inr ⟨e, h e rfl, rfl⟩

theorem listenStep_tag_1_ErrChannel (c : AccUDPClient) (now : Int) (rest : List Byte)
    (hlen : rest.length + 1 < ReadBufferSize) (c' : AccUDPClient)
    (hc : c.listenStep ⟨now, none, none, (1 : Byte) :: rest⟩ = .value c') :
    c'.ErrChannel = c.ErrChannel ∨
      (∃ e : GoError, e.Error ≠ (GoError.New "unknown inboundMessagetype").Error ∧
        c'.ErrChannel = c.ErrChannel ++ [e]) ∨
      (∃ msg : GoString, msg ≠ [] ∧ c'.ErrChannel = c.ErrChannel ++ [.NewOfBytes msg]) := by
  rw [listenStep_tag_1 c now rest hlen] at hc
  have h := readConnectionResponse_err rest
  generalize readConnectionResponse rest = R at h hc
  cases R with
  | panicked => cases hc
  | done r =>
  have h := h r rfl
  obtain ⟨v, e, b⟩ := r
  cases e with
  | none =>
    simp only at hc
    injection hc with hc
    subst hc
    exact Or.inl rfl
  | some e =>
    simp only at hc
    injection hc with hc
    subst hc
    rcases h with h | ⟨msg, hmsg, he⟩
    · exact Or.inr (Or.inl ⟨e, h e rfl, rfl⟩)
    · injection he with he
      subst he
      exact Or.inr (Or.inr ⟨msg, hmsg, rfl⟩)

/-- C11 as stated fails: a registration result (tag 1, a recognised tag)
whose error message is `unknown inboundMessagetype` puts on the error sink an
error that carries exactly the text of the error sent for an unrecognised
tag, such as the tag 8. -/
theorem listenStep_registration_unknown_text :
    registrationUnknownText.head? = some 1 ∧
    ({} : AccUDPClient).listenStep { received := registrationUnknownText }
      = .value { connectionId := 9, ErrChannel := [.NewOfBytes unknownTypeText] } ∧
    (GoError.NewOfBytes unknownTypeText).Error
      = (GoError.New "unknown inboundMessagetype").Error ∧
    ({} : AccUDPClient).listenStep { received := [8] }
      = .value { ErrChannel := [.New "unknown inboundMessagetype"] } := by
  decide

/-- C11, amended: on a non-empty datagram shorter than the buffer, one step
of the receive loop with a tag outside 1..7 appends exactly the error
`"unknown inboundMessagetype"` to the error sink and changes nothing else (no
event sink, no connection id).  The tags 1..7 are the recognised ones: each
is handed to its own decoder, whose panic, error or value decides the step,
and a value goes to the event sink of that tag.  With a tag in 2..7 a step
that returns leaves the error sink as it was or appends one error, whose text
is never the one of the unknown-type error.  With the tag 1 the appended
error is such an error or carries the non-empty error message of the
registration result, whatever its text. -/
theorem listenStep_tag_dispatch (c : AccUDPClient) (now : Int) (rest : List Byte)
    (hlen : rest.length + 1 < ReadBufferSize) :
    (∀ tag : Byte, ¬ (1 ≤ tag.val ∧ tag.val ≤ 7) →
      c.listenStep ⟨now, none, none, tag :: rest⟩ =
        .value { c with ErrChannel := c.ErrChannel ++ [.New "unknown inboundMessagetype"] }) ∧
    (c.listenStep ⟨now, none, none, 1 :: rest⟩ =
      match readConnectionResponse rest with
      | .panicked => .panicked
      | .done r =>
        match r.err with
        | some err =>
          .value { c with connectionId := r.val.1, ErrChannel := c.ErrChannel ++ [err] }
        | none => .value { c with connectionId := r.val.1 }) ∧
    (c.listenStep ⟨now, none, none, 2 :: rest⟩ =
      dispatched c (readRealtimeUpdateResponse now rest)
        (fun event => { c with
          RealtimeUpdateEventChannel := c.RealtimeUpdateEventChannel ++ [event] })) ∧
    (c.listenStep ⟨now, none, none, 3 :: rest⟩ =
      dispatched c (.done (readRealtimeCarUpdateResponse rest))
        (fun event => { c with
          RealtimeCarUpdateEventChannel := c.RealtimeCarUpdateEventChannel ++ [event] })) ∧
    (c.listenStep ⟨now, none, none, 4 :: rest⟩ =
      dispatched c (.done (readEntryListResponse rest))
        (fun r => { c with EntryListEventChannel := c.EntryListEventChannel ++ [r.2] })) ∧
    (c.listenStep ⟨now, none, none, 5 :: rest⟩ =
      dispatched c (readTrackDataResponse rest)
        (fun r => { c with TrackDataEventChannel := c.TrackDataEventChannel ++ [r.2] })) ∧
    (c.listenStep ⟨now, none, none, 6 :: rest⟩ =
      dispatched c (readEntryListCarResponse rest)
        (fun event => { c with
          EntryListCarEventChannel := c.EntryListCarEventChannel ++ [event] })) ∧
    (c.listenStep ⟨now, none, none, 7 :: rest⟩ =
      dispatched c (readBroadcastingEvent rest)
        (fun event => { c with BroadCastEventChannel := c.BroadCastEventChannel ++ [event] })) ∧
    (∀ tag : Byte, 2 ≤ tag.val ∧ tag.val ≤ 7 →
      ∀ c', c.listenStep ⟨now, none, none, tag :: rest⟩ = .value c' →
        c'.ErrChannel = c.ErrChannel ∨
          ∃ e : GoError, e.Error ≠ (GoError.New "unknown inboundMessagetype").Error ∧
            c'.ErrChannel = c.ErrChannel ++ [e]) ∧
    (∀ c', c.listenStep ⟨now, none, none, 1 :: rest⟩ = .value c' →
      c'.ErrChannel = c.ErrChannel ∨
        (∃ e : GoError, e.Error ≠ (GoError.New "unknown inboundMessagetype").Error ∧
          c'.ErrChannel = c.ErrChannel ++ [e]) ∨
        (∃ msg : GoString, msg ≠ [] ∧ c'.ErrChannel = c.ErrChannel ++ [.NewOfBytes msg])) := by
  refine ⟨?_, listenStep_tag_1 c now rest hlen, listenStep_tag_2 c now rest hlen,
    listenStep_tag_3 c now rest hlen, listenStep_tag_4 c now rest hlen,
    listenStep_tag_5 c now rest hlen, listenStep_tag_6 c now rest hlen,
    listenStep_tag_7 c now rest hlen, ?_, listenStep_tag_1_ErrChannel c now rest hlen⟩
  · intro tag hn
    exact listenStep_tag_unknown c now tag rest (by rw [List.length_cons]; exact hlen) hn
  · intro tag ht c' hc
    rcases listenStep_tag_cases tag ⟨by omega, ht.2⟩ with h | h | h | h | h | h | h <;> subst h
    · exact absurd ht.1 (by decide)
    · rw [listenStep_tag_2 c now rest hlen] at hc
      have h := readRealtimeUpdateResponse_notUnknown now rest
      generalize readRealtimeUpdateResponse now rest = R at h hc
      refine dispatched_ErrChannel c R _ ?_ h c' hc
      intro v
      rfl
    · rw [listenStep_tag_3 c now rest hlen] at hc
      have h := readRealtimeCarUpdateResponse_notUnknown rest
      generalize readRealtimeCarUpdateResponse rest = R at h hc
      refine dispatched_ErrChannel c (.done R) _ ?_ (RunNotUnknown_done h) c' hc
      intro v
      rfl
    · rw [listenStep_tag_4 c now rest hlen] at hc
      have h := readEntryListResponse_notUnknown rest
      generalize readEntryListResponse rest = R at h hc
      refine dispatched_ErrChannel c (.done R) _ ?_ (RunNotUnknown_done h) c' hc
      intro v
      rfl
    · rw [listenStep_tag_5 c now rest hlen] at hc
      have h := readTrackDataResponse_notUnknown rest
      generalize readTrackDataResponse rest = R at h hc
      refine dispatched_ErrChannel c R _ ?_ h c' hc
      intro v
      rfl
    · rw [listenStep_tag_6 c now rest hlen] at hc
      have h := readEntryListCarResponse_notUnknown rest
      generalize readEntryListCarResponse rest = R at h hc
      refine dispatched_ErrChannel c R _ ?_ h c' hc
      intro v
      rfl
    · rw [listenStep_tag_7 c now rest hlen] at hc
      have h := readBroadcastingEvent_notUnknown rest
      generalize readBroadcastingEvent rest = R at h hc
      refine dispatched_ErrChannel c R _ ?_ h c' hc
      intro v
      rfl

/-- Witness for C11: the tag 8 on a two-byte datagram; the tag 4 on an entry
list of the one id 7, which is published; and the tag 4 on an entry list cut
after its connection id, which puts `io.EOF` on the error sink. -/
theorem listenStep_tag_dispatch_witness :
    ({} : AccUDPClient).listenStep ⟨0, none, none, [8, 1]⟩ =
      .value { ErrChannel := [.New "unknown inboundMessagetype"] } ∧
    ({} : AccUDPClient).listenStep ⟨0, none, none, [4, 1, 0, 0, 0, 1, 0, 7, 0]⟩ =
      .value { EntryListEventChannel := [[7]] } ∧
    (({ ErrChannel := [.EOF] } : AccUDPClient).ErrChannel = ({} : AccUDPClient).ErrChannel ∨
      ∃ e : GoError, e.Error ≠ (GoError.New "unknown inboundMessagetype").Error ∧
        ({ ErrChannel := [.EOF] } : AccUDPClient).ErrChannel
          = ({} : AccUDPClient).ErrChannel ++ [e]) :=
  ⟨(listenStep_tag_dispatch {} 0 [1] (by decide)).1 8 (by decide),
   (listenStep_tag_dispatch {} 0 [1, 0, 0, 0, 1, 0, 7, 0] (by decide)).2.2.2.2.1,
   (listenStep_tag_dispatch {} 0 [1, 0, 0, 0] (by decide)).2.2.2.2.2.2.2.2.1 4 (by decide) _
     (by decide)⟩

/-! ## Decoding a truncated session update -/

theorem readFull_sync (n : Nat) (P S : Buffer) :
    (∃ v P', readFull n P = ⟨v, none, P'⟩ ∧ readFull n (P ++ S) = ⟨v, none, P' ++ S⟩) ∨
    (∃ v e, readFull n P = ⟨v, e, []⟩) := by
  by_cases h : n ≤ P.length
  · left
    refine ⟨P.take n, P.drop n, readFull_of_le h, ?_⟩
    have h2 : n ≤ (P ++ S).length := by rw [List.length_append]; omega
    rw [readFull_of_le h2, List.take_append_of_le_length h, List.drop_append_of_le_length h]
  · right
    unfold readFull
    rw [if_neg h]
    split
    · exact ⟨_, _, rfl⟩
    · exact ⟨_, _, rfl⟩

theorem readNumberByte_sync (P S : Buffer) :
    (∃ v P', readNumberByte P = ⟨v, none, P'⟩ ∧ readNumberByte (P ++ S) = ⟨v, none, P' ++ S⟩) ∨
    (∃ v e, readNumberByte P = ⟨v, e, []⟩) := by
  unfold readNumberByte
  rcases readFull_sync 1 P S with ⟨v, P', hp, hb⟩ | ⟨v, e, hp⟩
  · rw [hp, hb]; exact Or.inl ⟨_, _, rfl, rfl⟩
  · rw [hp]; cases e <;> exact Or.inr ⟨_, _, rfl⟩

theorem readNumberBool_sync (P S : Buffer) :
    (∃ v P', readNumberBool P = ⟨v, none, P'⟩ ∧ readNumberBool (P ++ S) = ⟨v, none, P' ++ S⟩) ∨
    (∃ v e, readNumberBool P = ⟨v, e, []⟩) := by
  unfold readNumberBool
  rcases readFull_sync 1 P S with ⟨v, P', hp, hb⟩ | ⟨v, e, hp⟩
  · rw [hp, hb]; exact Or.inl ⟨_, _, rfl, rfl⟩
  · rw [hp]; cases e <;> exact Or.inr ⟨_, _, rfl⟩

theorem readNumberUint16_sync (P S : Buffer) :
    (∃ v P', readNumberUint16 P = ⟨v, none, P'⟩ ∧
      readNumberUint16 (P ++ S) = ⟨v, none, P' ++ S⟩) ∨
    (∃ v e, readNumberUint16 P = ⟨v, e, []⟩) := by
  unfold readNumberUint16
  rcases readFull_sync 2 P S with ⟨v, P', hp, hb⟩ | ⟨v, e, hp⟩
  · rw [hp, hb]; exact Or.inl ⟨_, _, rfl, rfl⟩
  · rw [hp]; cases e <;> exact Or.inr ⟨_, _, rfl⟩

theorem readNumberInt16_sync (P S : Buffer) :
    (∃ v P', readNumberInt16 P = ⟨v, none, P'⟩ ∧
      readNumberInt16 (P ++ S) = ⟨v, none, P' ++ S⟩) ∨
    (∃ v e, readNumberInt16 P = ⟨v, e, []⟩) := by
  unfold readNumberInt16
  rcases readFull_sync 2 P S with ⟨v, P', hp, hb⟩ | ⟨v, e, hp⟩
  · rw [hp, hb]; exact Or.inl ⟨_, _, rfl, rfl⟩
  · rw [hp]; cases e <;> exact Or.inr ⟨_, _, rfl⟩

theorem readNumberInt32_sync (P S : Buffer) :
    (∃ v P', readNumberInt32 P = ⟨v, none, P'⟩ ∧
      readNumberInt32 (P ++ S) = ⟨v, none, P' ++ S⟩) ∨
    (∃ v e, readNumberInt32 P = ⟨v, e, []⟩) := by
  unfold readNumberInt32
  rcases readFull_sync 4 P S with ⟨v, P', hp, hb⟩ | ⟨v, e, hp⟩
  · rw [hp, hb]; exact Or.inl ⟨_, _, rfl, rfl⟩
  · rw [hp]; cases e <;> exact Or.inr ⟨_, _, rfl⟩

theorem readNumberFloat32_sync (P S : Buffer) :
    (∃ v P', readNumberFloat32 P = ⟨v, none, P'⟩ ∧
      readNumberFloat32 (P ++ S) = ⟨v, none, P' ++ S⟩) ∨
    (∃ v e, readNumberFloat32 P = ⟨v, e, []⟩) := by
  unfold readNumberFloat32
  rcases readFull_sync 4 P S with ⟨v, P', hp, hb⟩ | ⟨v, e, hp⟩
  · rw [hp, hb]; exact Or.inl ⟨_, _, rfl, rfl⟩
  · rw [hp]; cases e <;> exact Or.inr ⟨_, _, rfl⟩

theorem Buffer.Read_of_le (P : Buffer) (p : List Byte) (h : p.length ≤ P.length) :
    P.Read p = ⟨P.take p.length ++ p.drop p.length, p.length, none, P.drop p.length⟩ := by
  unfold Buffer.Read
  by_cases h0 : P.length = 0
  · have hP : P = [] := List.eq_nil_of_length_eq_zero h0
    have hp : p = [] := List.eq_nil_of_length_eq_zero (by omega)
    subst hP hp
    rfl
  · have hm : min p.length P.length = p.length := by omega
    rw [if_neg h0]
    simp only [hm]

theorem Buffer.Read_buf_of_gt (P : Buffer) (p : List Byte) (h : P.length < p.length) :
    (P.Read p).buf = [] := by
  unfold Buffer.Read
  by_cases h0 : P.length = 0
  · have hP : P = [] := List.eq_nil_of_length_eq_zero h0
    subst hP
    have hp : ¬ p.length = 0 := by omega
    simp [hp]
  · have hm : min p.length P.length = P.length := by omega
    rw [if_neg h0]
    simp only [hm]
    exact List.drop_of_length_le (le_refl _)

theorem readString_nil : readString [] = .done ⟨[], none, []⟩ := by
  decide

theorem readString_singleton (x : Byte) : readString [x] = .done ⟨[], none, []⟩ := by
  have h : readNumberInt16 [x] = ⟨0, some .ErrUnexpectedEOF, []⟩ := by
    simp [readNumberInt16, readFull]
  unfold readString
  rw [h]
  decide

theorem readString_sync (P S : Buffer) :
    readString (P ++ S) = .panicked ∨
    (∃ v e P' e', readString P = .done ⟨v, e, P'⟩ ∧
      readString (P ++ S) = .done ⟨v, e', P' ++ S⟩) ∨
    (∃ v e, readString P = .done ⟨v, e, []⟩) := by
  rcases P with _ | ⟨l0, _ | ⟨l1, P'⟩⟩
  · exact Or.inr (Or.inr ⟨_, _, readString_nil⟩)
  · exact Or.inr (Or.inr ⟨_, _, readString_singleton l0⟩)
  · simp only [List.cons_append]
    rw [readString_cons, readString_cons]
    generalize toInt16 (leNat [l0, l1]) = L
    by_cases hL : L < 0
    · left; rw [if_pos hL]
    · right
      rw [if_neg hL, if_neg hL]
      by_cases hle : (List.replicate L.toNat (0 : Byte)).length ≤ P'.length
      · left
        have hle2 : (List.replicate L.toNat (0 : Byte)).length ≤ (P' ++ S).length := by
          rw [List.length_append]; omega
        rw [Buffer.Read_of_le _ _ hle, Buffer.Read_of_le _ _ hle2,
          List.take_append_of_le_length hle, List.drop_append_of_le_length hle]
        exact ⟨_, _, _, _, rfl, rfl⟩
      · right
        have hb := Buffer.Read_buf_of_gt P' (List.replicate L.toNat 0) (by omega)
        rw [hb]
        exact ⟨_, _, rfl⟩

theorem readLap_strict_sub (P S : Buffer) (hS : S ≠ [])
    (h1 : (readLap (P ++ S)).err = none) (h2 : (readLap (P ++ S)).buf = []) :
    (readLap P).err ≠ none := by
  intro hP
  obtain ⟨hlenP, _, _⟩ := readLap_ok P hP
  obtain ⟨_, hbuf, _⟩ := readLap_ok (P ++ S) h1
  have hk : (P ++ S).getD 8 0 = P.getD 8 0 := by
    rw [List.getD_eq_getElem?_getD, List.getD_eq_getElem?_getD,
      List.getElem?_append_left (by omega)]
  rw [h2, hk] at hbuf
  have hl := congrArg List.length hbuf
  rw [List.length_nil, List.length_drop, List.length_append] at hl
  have : S.length = 0 := by omega
  exact hS (List.eq_nil_of_length_eq_zero this)

theorem parseTime_buf (now : Int) (r : Res Nat) : (parseTime now r).buf = r.buf := rfl

theorem parseDuration_buf (r : Res Nat) : (parseDuration r).buf = r.buf := rfl

theorem readNumberByte_nil_eq : readNumberByte [] = ⟨0, some .EOF, []⟩ := rfl

theorem readNumberBool_nil_eq : readNumberBool [] = ⟨false, some .EOF, []⟩ := rfl

theorem readNumberUint16_nil_eq : readNumberUint16 [] = ⟨0, some .EOF, []⟩ := rfl

theorem readNumberInt32_nil_eq : readNumberInt32 [] = ⟨0, some .EOF, []⟩ := rfl

theorem readNumberFloat32_nil_eq : readNumberFloat32 [] = ⟨0, some .EOF, []⟩ := rfl

theorem readLap_nil_eq : readLap [] = ⟨{}, some .EOF, []⟩ := rfl

section TruncatedUpdate

attribute [local irreducible] readNumberByte readNumberBool readNumberUint16 readNumberInt32
  readNumberFloat32 readString readLap

/-- C18: when `readRealtimeUpdateResponse` decodes the buffer `P0 ++ S`
without error and consumes all of it, and `S` is not empty, then on the
truncated buffer `P0` it returns (it does not panic) with a non-nil error,
although no field before the last lap is tested for an error. -/
theorem readRealtimeUpdateResponse_truncated (now now' : Int) (P0 S : Buffer) (r : Res RealTimeUpdate)
    (hB : readRealtimeUpdateResponse now (P0 ++ S) = .done r) (herr : r.err = none)
    (hbuf : r.buf = []) (hS : S ≠ []) :
    ∃ r', readRealtimeUpdateResponse now' P0 = .done r' ∧ r'.err ≠ none := by
  unfold readRealtimeUpdateResponse at hB ⊢
  conv at hB => zeta
  conv => zeta
  rcases readNumberUint16_sync P0 S with ⟨v1, P1, hp, hb⟩ | ⟨v1, e1, hp⟩
  swap
  · rw [hp]
    simp only [parseTime_buf, parseDuration_buf, divideByTen, readNumberByte_nil_eq, readNumberBool_nil_eq, readNumberUint16_nil_eq, readNumberInt32_nil_eq, readNumberFloat32_nil_eq, readString_nil, readLap_nil_eq, Bool.false_eq_true, if_false, eq_self, if_true]
    exact ⟨_, rfl, by simp⟩
  rw [hp]
  rw [hb] at hB
  simp only [parseTime_buf, parseDuration_buf, divideByTen] at hB ⊢
  clear hp hb
  rcases readNumberUint16_sync P1 S with ⟨v2, P2, hp, hb⟩ | ⟨v2, e2, hp⟩
  swap
  · rw [hp]
    simp only [parseTime_buf, parseDuration_buf, divideByTen, readNumberByte_nil_eq, readNumberBool_nil_eq, readNumberUint16_nil_eq, readNumberInt32_nil_eq, readNumberFloat32_nil_eq, readString_nil, readLap_nil_eq, Bool.false_eq_true, if_false, eq_self, if_true]
    exact ⟨_, rfl, by simp⟩
  rw [hp]
  rw [hb] at hB
  simp only [parseTime_buf, parseDuration_buf, divideByTen] at hB ⊢
  clear hp hb
  rcases readNumberByte_sync P2 S with ⟨v3, P3, hp, hb⟩ | ⟨v3, e3, hp⟩
  swap
  · rw [hp]
    simp only [parseTime_buf, parseDuration_buf, divideByTen, readNumberByte_nil_eq, readNumberBool_nil_eq, readNumberUint16_nil_eq, readNumberInt32_nil_eq, readNumberFloat32_nil_eq, readString_nil, readLap_nil_eq, Bool.false_eq_true, if_false, eq_self, if_true]
    exact ⟨_, rfl, by simp⟩
  rw [hp]
  rw [hb] at hB
  simp only [parseTime_buf, parseDuration_buf, divideByTen] at hB ⊢
  clear hp hb
  rcases readNumberByte_sync P3 S with ⟨v4, P4, hp, hb⟩ | ⟨v4, e4, hp⟩
  swap
  · rw [hp]
    simp only [parseTime_buf, parseDuration_buf, divideByTen, readNumberByte_nil_eq, readNumberBool_nil_eq, readNumberUint16_nil_eq, readNumberInt32_nil_eq, readNumberFloat32_nil_eq, readString_nil, readLap_nil_eq, Bool.false_eq_true, if_false, eq_self, if_true]
    exact ⟨_, rfl, by simp⟩
  rw [hp]
  rw [hb] at hB
  simp only [parseTime_buf, parseDuration_buf, divideByTen] at hB ⊢
  clear hp hb
  rcases readNumberFloat32_sync P4 S with ⟨v5, P5, hp, hb⟩ | ⟨v5, e5, hp⟩
  swap
  · rw [hp]
    simp only [parseTime_buf, parseDuration_buf, divideByTen, readNumberByte_nil_eq, readNumberBool_nil_eq, readNumberUint16_nil_eq, readNumberInt32_nil_eq, readNumberFloat32_nil_eq, readString_nil, readLap_nil_eq, Bool.false_eq_true, if_false, eq_self, if_true]
    exact ⟨_, rfl, by simp⟩
  rw [hp]
  rw [hb] at hB
  simp only [parseTime_buf, parseDuration_buf, divideByTen] at hB ⊢
  clear hp hb
  rcases readNumberFloat32_sync P5 S with ⟨v6, P6, hp, hb⟩ | ⟨v6, e6, hp⟩
  swap
  · rw [hp]
    simp only [parseTime_buf, parseDuration_buf, divideByTen, readNumberByte_nil_eq, readNumberBool_nil_eq, readNumberUint16_nil_eq, readNumberInt32_nil_eq, readNumberFloat32_nil_eq, readString_nil, readLap_nil_eq, Bool.false_eq_true, if_false, eq_self, if_true]
    exact ⟨_, rfl, by simp⟩
  rw [hp]
  rw [hb] at hB
  simp only [parseTime_buf, parseDuration_buf, divideByTen] at hB ⊢
  clear hp hb
  rcases readNumberInt32_sync P6 S with ⟨v7, P7, hp, hb⟩ | ⟨v7, e7, hp⟩
  swap
  · rw [hp]
    simp only [parseTime_buf, parseDuration_buf, divideByTen, readNumberByte_nil_eq, readNumberBool_nil_eq, readNumberUint16_nil_eq, readNumberInt32_nil_eq, readNumberFloat32_nil_eq, readString_nil, readLap_nil_eq, Bool.false_eq_true, if_false, eq_self, if_true]
    exact ⟨_, rfl, by simp⟩
  rw [hp]
  rw [hb] at hB
  simp only [parseTime_buf, parseDuration_buf, divideByTen] at hB ⊢
  clear hp hb
  rcases readString_sync P7 S with hpan | ⟨v8, e8, P8, f8, hp, hb⟩ | ⟨v8, e8, hp⟩
  · rw [hpan] at hB
    simp at hB
  swap
  · rw [hp]
    simp only [parseTime_buf, parseDuration_buf, divideByTen, readNumberByte_nil_eq, readNumberBool_nil_eq, readNumberUint16_nil_eq, readNumberInt32_nil_eq, readNumberFloat32_nil_eq, readString_nil, readLap_nil_eq, Bool.false_eq_true, if_false, eq_self, if_true]
    exact ⟨_, rfl, by simp⟩
  rw [hp]
  rw [hb] at hB
  simp only [parseTime_buf, parseDuration_buf, divideByTen] at hB ⊢
  clear hp hb
  rcases readString_sync P8 S with hpan | ⟨v9, e9, P9, f9, hp, hb⟩ | ⟨v9, e9, hp⟩
  · rw [hpan] at hB
    simp at hB
  swap
  · rw [hp]
    simp only [parseTime_buf, parseDuration_buf, divideByTen, readNumberByte_nil_eq, readNumberBool_nil_eq, readNumberUint16_nil_eq, readNumberInt32_nil_eq, readNumberFloat32_nil_eq, readString_nil, readLap_nil_eq, Bool.false_eq_true, if_false, eq_self, if_true]
    exact ⟨_, rfl, by simp⟩
  rw [hp]
  rw [hb] at hB
  simp only [parseTime_buf, parseDuration_buf, divideByTen] at hB ⊢
  clear hp hb
  rcases readString_sync P9 S with hpan | ⟨v10, e10, P10, f10, hp, hb⟩ | ⟨v10, e10, hp⟩
  · rw [hpan] at hB
    simp at hB
  swap
  · rw [hp]
    simp only [parseTime_buf, parseDuration_buf, divideByTen, readNumberByte_nil_eq, readNumberBool_nil_eq, readNumberUint16_nil_eq, readNumberInt32_nil_eq, readNumberFloat32_nil_eq, readString_nil, readLap_nil_eq, Bool.false_eq_true, if_false, eq_self, if_true]
    exact ⟨_, rfl, by simp⟩
  rw [hp]
  rw [hb] at hB
  simp only [parseTime_buf, parseDuration_buf, divideByTen] at hB ⊢
  clear hp hb
  rcases readNumberBool_sync P10 S with ⟨v11, P11, hp, hb⟩ | ⟨v11, e11, hp⟩
  swap
  · rw [hp]
    cases v11 <;> simp only [parseTime_buf, parseDuration_buf, divideByTen, readNumberByte_nil_eq, readNumberBool_nil_eq, readNumberUint16_nil_eq, readNumberInt32_nil_eq, readNumberFloat32_nil_eq, readString_nil, readLap_nil_eq, Bool.false_eq_true, if_false, eq_self, if_true] <;> exact ⟨_, rfl, by simp⟩
  rw [hp]
  rw [hb] at hB
  simp only [parseTime_buf, parseDuration_buf, divideByTen] at hB ⊢
  clear hp hb
  cases v11
  · simp only [Bool.false_eq_true, if_false] at hB ⊢
    rcases readNumberFloat32_sync P11 S with ⟨v14, P14, hp, hb⟩ | ⟨v14, e14, hp⟩
    swap
    · rw [hp]
      simp only [parseTime_buf, parseDuration_buf, divideByTen, readNumberByte_nil_eq, readNumberBool_nil_eq, readNumberUint16_nil_eq, readNumberInt32_nil_eq, readNumberFloat32_nil_eq, readString_nil, readLap_nil_eq, Bool.false_eq_true, if_false, eq_self, if_true]
      exact ⟨_, rfl, by simp⟩
    rw [hp]
    rw [hb] at hB
    simp only [parseTime_buf, parseDuration_buf, divideByTen] at hB ⊢
    clear hp hb
    rcases readNumberByte_sync P14 S with ⟨v15, P15, hp, hb⟩ | ⟨v15, e15, hp⟩
    swap
    · rw [hp]
      simp only [parseTime_buf, parseDuration_buf, divideByTen, readNumberByte_nil_eq, readNumberBool_nil_eq, readNumberUint16_nil_eq, readNumberInt32_nil_eq, readNumberFloat32_nil_eq, readString_nil, readLap_nil_eq, Bool.false_eq_true, if_false, eq_self, if_true]
      exact ⟨_, rfl, by simp⟩
    rw [hp]
    rw [hb] at hB
    simp only [parseTime_buf, parseDuration_buf, divideByTen] at hB ⊢
    clear hp hb
    rcases readNumberByte_sync P15 S with ⟨v16, P16, hp, hb⟩ | ⟨v16, e16, hp⟩
    swap
    · rw [hp]
      simp only [parseTime_buf, parseDuration_buf, divideByTen, readNumberByte_nil_eq, readNumberBool_nil_eq, readNumberUint16_nil_eq, readNumberInt32_nil_eq, readNumberFloat32_nil_eq, readString_nil, readLap_nil_eq, Bool.false_eq_true, if_false, eq_self, if_true]
      exact ⟨_, rfl, by simp⟩
    rw [hp]
    rw [hb] at hB
    simp only [parseTime_buf, parseDuration_buf, divideByTen] at hB ⊢
    clear hp hb
    rcases readNumberByte_sync P16 S with ⟨v17, P17, hp, hb⟩ | ⟨v17, e17, hp⟩
    swap
    · rw [hp]
      simp only [parseTime_buf, parseDuration_buf, divideByTen, readNumberByte_nil_eq, readNumberBool_nil_eq, readNumberUint16_nil_eq, readNumberInt32_nil_eq, readNumberFloat32_nil_eq, readString_nil, readLap_nil_eq, Bool.false_eq_true, if_false, eq_self, if_true]
      exact ⟨_, rfl, by simp⟩
    rw [hp]
    rw [hb] at hB
    simp only [parseTime_buf, parseDuration_buf, divideByTen] at hB ⊢
    clear hp hb
    rcases readNumberByte_sync P17 S with ⟨v18, P18, hp, hb⟩ | ⟨v18, e18, hp⟩
    swap
    · rw [hp]
      simp only [parseTime_buf, parseDuration_buf, divideByTen, readNumberByte_nil_eq, readNumberBool_nil_eq, readNumberUint16_nil_eq, readNumberInt32_nil_eq, readNumberFloat32_nil_eq, readString_nil, readLap_nil_eq, Bool.false_eq_true, if_false, eq_self, if_true]
      exact ⟨_, rfl, by simp⟩
    rw [hp]
    rw [hb] at hB
    simp only [parseTime_buf, parseDuration_buf, divideByTen] at hB ⊢
    clear hp hb
    rcases readNumberByte_sync P18 S with ⟨v19, P19, hp, hb⟩ | ⟨v19, e19, hp⟩
    swap
    · rw [hp]
      simp only [parseTime_buf, parseDuration_buf, divideByTen, readNumberByte_nil_eq, readNumberBool_nil_eq, readNumberUint16_nil_eq, readNumberInt32_nil_eq, readNumberFloat32_nil_eq, readString_nil, readLap_nil_eq, Bool.false_eq_true, if_false, eq_self, if_true]
      exact ⟨_, rfl, by simp⟩
    rw [hp]
    rw [hb] at hB
    simp only [parseTime_buf, parseDuration_buf, divideByTen] at hB ⊢
    clear hp hb
    injection hB with hB
    subst hB
    simp only at herr hbuf
    exact ⟨_, rfl, readLap_strict_sub _ S hS herr hbuf⟩
  · simp only [eq_self, if_true, parseTime_buf, parseDuration_buf] at hB ⊢
    rcases readNumberFloat32_sync P11 S with ⟨v12, P12, hp, hb⟩ | ⟨v12, e12, hp⟩
    swap
    · rw [hp]
      simp only [parseTime_buf, parseDuration_buf, divideByTen, readNumberByte_nil_eq, readNumberBool_nil_eq, readNumberUint16_nil_eq, readNumberInt32_nil_eq, readNumberFloat32_nil_eq, readString_nil, readLap_nil_eq, Bool.false_eq_true, if_false, eq_self, if_true]
      exact ⟨_, rfl, by simp⟩
    rw [hp]
    rw [hb] at hB
    simp only [parseTime_buf, parseDuration_buf, divideByTen] at hB ⊢
    clear hp hb
    rcases readNumberFloat32_sync P12 S with ⟨v13, P13, hp, hb⟩ | ⟨v13, e13, hp⟩
    swap
    · rw [hp]
      simp only [parseTime_buf, parseDuration_buf, divideByTen, readNumberByte_nil_eq, readNumberBool_nil_eq, readNumberUint16_nil_eq, readNumberInt32_nil_eq, readNumberFloat32_nil_eq, readString_nil, readLap_nil_eq, Bool.false_eq_true, if_false, eq_self, if_true]
      exact ⟨_, rfl, by simp⟩
    rw [hp]
    rw [hb] at hB
    simp only [parseTime_buf, parseDuration_buf, divideByTen] at hB ⊢
    clear hp hb
    rcases readNumberFloat32_sync P13 S with ⟨v14, P14, hp, hb⟩ | ⟨v14, e14, hp⟩
    swap
    · rw [hp]
      simp only [parseTime_buf, parseDuration_buf, divideByTen, readNumberByte_nil_eq, readNumberBool_nil_eq, readNumberUint16_nil_eq, readNumberInt32_nil_eq, readNumberFloat32_nil_eq, readString_nil, readLap_nil_eq, Bool.false_eq_true, if_false, eq_self, if_true]
      exact ⟨_, rfl, by simp⟩
    rw [hp]
    rw [hb] at hB
    simp only [parseTime_buf, parseDuration_buf, divideByTen] at hB ⊢
    clear hp hb
    rcases readNumberByte_sync P14 S with ⟨v15, P15, hp, hb⟩ | ⟨v15, e15, hp⟩
    swap
    · rw [hp]
      simp only [parseTime_buf, parseDuration_buf, divideByTen, readNumberByte_nil_eq, readNumberBool_nil_eq, readNumberUint16_nil_eq, readNumberInt32_nil_eq, readNumberFloat32_nil_eq, readString_nil, readLap_nil_eq, Bool.false_eq_true, if_false, eq_self, if_true]
      exact ⟨_, rfl, by simp⟩
    rw [hp]
    rw [hb] at hB
    simp only [parseTime_buf, parseDuration_buf, divideByTen] at hB ⊢
    clear hp hb
    rcases readNumberByte_sync P15 S with ⟨v16, P16, hp, hb⟩ | ⟨v16, e16, hp⟩
    swap
    · rw [hp]
      simp only [parseTime_buf, parseDuration_buf, divideByTen, readNumberByte_nil_eq, readNumberBool_nil_eq, readNumberUint16_nil_eq, readNumberInt32_nil_eq, readNumberFloat32_nil_eq, readString_nil, readLap_nil_eq, Bool.false_eq_true, if_false, eq_self, if_true]
      exact ⟨_, rfl, by simp⟩
    rw [hp]
    rw [hb] at hB
    simp only [parseTime_buf, parseDuration_buf, divideByTen] at hB ⊢
    clear hp hb
    rcases readNumberByte_sync P16 S with ⟨v17, P17, hp, hb⟩ | ⟨v17, e17, hp⟩
    swap
    · rw [hp]
      simp only [parseTime_buf, parseDuration_buf, divideByTen, readNumberByte_nil_eq, readNumberBool_nil_eq, readNumberUint16_nil_eq, readNumberInt32_nil_eq, readNumberFloat32_nil_eq, readString_nil, readLap_nil_eq, Bool.false_eq_true, if_false, eq_self, if_true]
      exact ⟨_, rfl, by simp⟩
    rw [hp]
    rw [hb] at hB
    simp only [parseTime_buf, parseDuration_buf, divideByTen] at hB ⊢
    clear hp hb
    rcases readNumberByte_sync P17 S with ⟨v18, P18, hp, hb⟩ | ⟨v18, e18, hp⟩
    swap
    · rw [hp]
      simp only [parseTime_buf, parseDuration_buf, divideByTen, readNumberByte_nil_eq, readNumberBool_nil_eq, readNumberUint16_nil_eq, readNumberInt32_nil_eq, readNumberFloat32_nil_eq, readString_nil, readLap_nil_eq, Bool.false_eq_true, if_false, eq_self, if_true]
      exact ⟨_, rfl, by simp⟩
    rw [hp]
    rw [hb] at hB
    simp only [parseTime_buf, parseDuration_buf, divideByTen] at hB ⊢
    clear hp hb
    rcases readNumberByte_sync P18 S with ⟨v19, P19, hp, hb⟩ | ⟨v19, e19, hp⟩
    swap
    · rw [hp]
      simp only [parseTime_buf, parseDuration_buf, divideByTen, readNumberByte_nil_eq, readNumberBool_nil_eq, readNumberUint16_nil_eq, readNumberInt32_nil_eq, readNumberFloat32_nil_eq, readString_nil, readLap_nil_eq, Bool.false_eq_true, if_false, eq_self, if_true]
      exact ⟨_, rfl, by simp⟩
    rw [hp]
    rw [hb] at hB
    simp only [parseTime_buf, parseDuration_buf, divideByTen] at hB ⊢
    clear hp hb
    injection hB with hB
    subst hB
    simp only at herr hbuf
    exact ⟨_, rfl, readLap_strict_sub _ S hS herr hbuf⟩

end TruncatedUpdate

/-- Witness for C18: a complete session update of 47 bytes, cut before its
last byte. -/
theorem readRealtimeUpdateResponse_truncated_witness :
    (∃ r, readRealtimeUpdateResponse 7 (sessionUpdateCut ++ [0]) = .done r ∧ r.err = none ∧
      r.buf = []) ∧
    ∃ r', readRealtimeUpdateResponse 0 sessionUpdateCut = .done r' ∧ r'.err ≠ none :=
  ⟨⟨_, rfl, rfl, rfl⟩,
   readRealtimeUpdateResponse_truncated 7 0 sessionUpdateCut [0] _ rfl rfl rfl (by decide)⟩

/-! ## `Connect` and the guard of the receive loop -/

/-- `Connect` leaves every modelled field of the client as it was. -/
theorem Connect_client (c : AccUDPClient) (i : ConnectInput) : (c.Connect i).client = c := by
  obtain ⟨resolveErr, dialErr, written, writeErr⟩ := i
  unfold AccUDPClient.Connect
  cases resolveErr with
  | some e => rfl
  | none =>
  cases dialErr with
  | some e => rfl
  | none =>
  dsimp only
  split <;> rfl

/-- C21: for the client built by `NewAccUDPClient`, `Connect` with the
address resolved, the socket opened and the 15 bytes of the registration
request written returns no error and reaches `go c.listen()`, and the
client's `listening` flag is false: `listen` returns at once, whatever
datagrams are waiting, while the same client with `listening` set would
handle the datagram.  The flag is false after `Connect` for every client
built by `NewAccUDPClient` and every outcome of the network calls. -/
theorem Connect_listening_false :
    (NewAccUDPClient [] [110] [97] 250 [98] 1000).Connect ⟨none, none, 15, none⟩
      = ⟨none, NewAccUDPClient [] [110] [97] 250 [98] 1000, true⟩ ∧
    ((NewAccUDPClient [] [110] [97] 250 [98] 1000).Connect
      ⟨none, none, 15, none⟩).client.listening = false ∧
    (∀ (i : ListenInput) (rest : List ListenInput),
      ((NewAccUDPClient [] [110] [97] 250 [98] 1000).Connect
        ⟨none, none, 15, none⟩).client.listen (i :: rest)
        = .value (NewAccUDPClient [] [110] [97] 250 [98] 1000)) ∧
    ({ NewAccUDPClient [] [110] [97] 250 [98] 1000 with listening := true }).listen
        [⟨0, none, none, [8]⟩]
      = .value { NewAccUDPClient [] [110] [97] 250 [98] 1000 with
          listening := true, ErrChannel := [.New "unknown inboundMessagetype"] } ∧
    (∀ (address displayName connectionPassword : GoString) (msRealtimeUpdateInterval : Int)
        (commandPassword : GoString) (timeoutMs : Int) (i : ConnectInput),
      ((NewAccUDPClient address displayName connectionPassword msRealtimeUpdateInterval
        commandPassword timeoutMs).Connect i).client.listening = false) := by
  have h : (NewAccUDPClient [] [110] [97] 250 [98] 1000).Connect ⟨none, none, 15, none⟩
      = ⟨none, NewAccUDPClient [] [110] [97] 250 [98] 1000, true⟩ := by decide
  refine ⟨h, ?_, ?_, ?_, ?_⟩
  · rw [h]
    rfl
  · intro i rest
    rw [h]
    rfl
  · decide
  · intro address displayName connectionPassword msRealtimeUpdateInterval commandPassword
      timeoutMs i
    rw [Connect_client]
    rfl

/-! ## `readString` on a buffer without a whole length prefix -/

/-- C22: on the empty buffer and on a buffer of one byte `readString`
returns the empty string with a nil error, and the buffer is left empty. -/
theorem readString_no_prefix_nil_error :
    readString [] = .done ⟨[], none, []⟩ ∧
    readString [7] = .done ⟨[], none, []⟩ ∧
    ∀ x : Byte, readString [x] = .done ⟨[], none, []⟩ := by
  refine ⟨by decide, by decide, ?_⟩
  intro x
  have h : readNumberInt16 [x] = ⟨0, some .ErrUnexpectedEOF, []⟩ := by
    simp [readNumberInt16, readFull]
  unfold readString
  rw [h]
  decide

/-! ## `readString` on a negative length -/

/-- C23: on the bytes `0xFF 0xFF` (the length -1) `readString` panics, and
so does one step of the receive loop on a registration result whose error
message has this length; on a buffer of two bytes or more `readString`
panics exactly when the second byte is 128 or more, that is when the signed
length is negative. -/
theorem readString_negative_length_panics :
    readString [255, 255] = .panicked ∧
    ({} : AccUDPClient).listenStep { received := registrationNegativeLength } = .panicked ∧
    ∀ (l0 l1 : Byte) (rest : Buffer),
      readString (l0 :: l1 :: rest) = .panicked ↔ 128 ≤ l1.val := by
  refine ⟨by decide, by decide, ?_⟩
  intro l0 l1 rest
  have hN : leNat [l0, l1] = l0.val + 256 * l1.val := by simp [leNat]
  have h0 := l0.isLt
  have h1 := l1.isLt
  have hneg : toInt16 (l0.val + 256 * l1.val) < 0 ↔ 128 ≤ l1.val := by
    unfold toInt16
    split <;> omega
  rw [readString_cons, hN]
  constructor
  · intro h
    by_contra hc
    rw [if_neg (fun hlt => hc (hneg.1 hlt))] at h
    exact Run.noConfusion h
  · intro h
    rw [if_pos (hneg.2 h)]

/-! ## Camera sets without a camera -/

/-- C24: track data that declares two camera sets, `"a"` with no camera and
`"b"` with the camera `"c"`, decodes without error into a map with the single
key `"b"`: the map has one entry, not two, and no key `"a"`. -/
theorem readTrackDataResponse_empty_camera_set :
    readTrackDataResponse trackDataEmptySet =
      .done ⟨(1, { Id := 5, Meters := 10, CameraSets := [([98], [[99]])] }), none, []⟩ ∧
    trackDataEmptySet.getD 11 0 = 2 ∧
    (∀ r, readTrackDataResponse trackDataEmptySet = .done r →
      r.val.2.CameraSets.length = 1 ∧ ([97] : GoString) ∉ r.val.2.CameraSets.map Prod.fst) := by
  have h : readTrackDataResponse trackDataEmptySet =
      .done ⟨(1, { Id := 5, Meters := 10, CameraSets := [([98], [[99]])] }), none, []⟩ := by
    decide
  refine ⟨h, by decide, ?_⟩
  intro r hr
  rw [h] at hr
  injection hr with hr
  subst hr
  decide

end AccTelemetry
